import Mathlib

/-!
Verification development for the copilot-api protocol-translation gateway.

The definitions in this file are a shallow embedding of the TypeScript
sources (src/routes/messages/non-stream-translation.ts,
src/routes/messages/responses-translation.ts,
src/routes/messages/count-tokens-handler.ts and the messages handler).
JavaScript strings are modelled by Lean `String`, JS objects/`Map`s by
association lists, JS `Set`s by duplicate-free lists built by guarded
insertion, thrown exceptions by `Except`, and absent (`undefined`) fields
by `Option`.

JSON values (`JSON.parse` / `JSON.stringify`) are modelled by an inductive
`JSON` type with integer numbers and a recursive-descent parser.  The model
deliberately restricts JSON numbers to integers and string escaping to the
common escapes (quote, backslash, \n, \t, \r on output); inputs outside
this fragment (float literals, \u escapes) are not exercised by any claim.
-/

set_option maxHeartbeats 1000000

namespace CopilotApi

/-! ## JSON value model -/

inductive JSON where
  | null
  | bool (b : Bool)
  | num (n : Int)
  | str (s : String)
  | arr (elems : List JSON)
  | obj (members : List (String × JSON))
  deriving Repr

/-- Decimal digit character for `n < 10`. -/
def digitChar (n : Nat) : Char := Char.ofNat (48 + n)

/-- Decimal digits of a natural number, most significant first
(the output of `JSON.stringify` on a non-negative integer). -/
def natToChars (n : Nat) : List Char :=
  if n < 10 then [digitChar n]
  else natToChars (n / 10) ++ [digitChar (n % 10)]
decreasing_by exact Nat.div_lt_self (by omega) (by omega)

/-- Decimal representation of an integer. -/
def intToChars (n : Int) : List Char :=
  if n < 0 then '-' :: natToChars n.natAbs else natToChars n.toNat

/-- Escaping performed by `JSON.stringify` inside string literals
(restricted to the escapes exercised here). -/
def escapeChar (c : Char) : List Char :=
  if c = '"' then ['\\', '"']
  else if c = '\\' then ['\\', '\\']
  else if c = '\n' then ['\\', 'n']
  else if c = '\t' then ['\\', 't']
  else if c = '\r' then ['\\', 'r']
  else [c]

def escapeChars : List Char → List Char
  | [] => []
  | c :: cs => escapeChar c ++ escapeChars cs

mutual

/-- `JSON.stringify` (canonical, no extra whitespace), as a character list. -/
def stringifyChars : JSON → List Char
  | .null => (['n', 'u', 'l', 'l'] : List Char)
  | .bool true => (['t', 'r', 'u', 'e'] : List Char)
  | .bool false => (['f', 'a', 'l', 's', 'e'] : List Char)
  | .num n => intToChars n
  | .str s => '"' :: (escapeChars s.data ++ ['"'])
  | .arr [] => ['[', ']']
  | .arr (x :: xs) => '[' :: (stringifyElems x xs ++ [']'])
  | .obj [] => ['{', '}']
  | .obj (m :: ms) => '{' :: (stringifyMembers m ms ++ ['}'])
termination_by x => sizeOf x
decreasing_by all_goals (simp_wf <;> omega)

def stringifyElems : JSON → List JSON → List Char
  | x, [] => stringifyChars x
  | x, y :: ys => stringifyChars x ++ (',' :: stringifyElems y ys)
termination_by x xs => 1 + sizeOf x + sizeOf xs
decreasing_by all_goals (simp_wf <;> omega)

def stringifyMembers : String × JSON → List (String × JSON) → List Char
  | (k, v), [] =>
      '"' :: (escapeChars k.data ++ ('"' :: ':' :: stringifyChars v))
  | (k, v), m :: ms =>
      ('"' :: (escapeChars k.data ++ ('"' :: ':' :: stringifyChars v)))
        ++ (',' :: stringifyMembers m ms)
termination_by m ms => 1 + sizeOf m + sizeOf ms
decreasing_by all_goals (simp_wf <;> omega)

end

def jsonStringify (x : JSON) : String := String.mk (stringifyChars x)

/-! ## JSON parser (model of `JSON.parse`) -/

/-- JSON insignificant whitespace. -/
def isJsonWs (c : Char) : Bool :=
  c = ' ' || c = '\t' || c = '\n' || c = '\r'

def skipWs : List Char → List Char
  | [] => []
  | c :: cs => if isJsonWs c then skipWs cs else c :: cs

def unescapeChar (c : Char) : Option Char :=
  if c = '"' then some '"'
  else if c = '\\' then some '\\'
  else if c = '/' then some '/'
  else if c = 'n' then some '\n'
  else if c = 't' then some '\t'
  else if c = 'r' then some '\r'
  else if c = 'b' then some (Char.ofNat 8)
  else if c = 'f' then some (Char.ofNat 12)
  else none

/-- Parse the body of a JSON string literal (the opening quote already
consumed), returning the decoded characters and the rest of the input. -/
def parseStringBody : List Char → Option (List Char × List Char)
  | [] => none
  | c :: cs =>
    if c = '"' then some ([], cs)
    else if c = '\\' then
      match cs with
      | [] => none
      | e :: cs2 =>
        match unescapeChar e with
        | some u =>
          match parseStringBody cs2 with
          | some (s, r) => some (u :: s, r)
          | none => none
        | none => none
    else
      match parseStringBody cs with
      | some (s, r) => some (c :: s, r)
      | none => none
termination_by structural cs => cs

/-- Consume a maximal run of decimal digits, folding them onto `acc`. -/
def parseDigits : List Char → Nat → Nat × List Char
  | [], acc => (acc, [])
  | c :: cs, acc =>
    if c.isDigit then parseDigits cs (acc * 10 + (c.toNat - 48))
    else (acc, c :: cs)

/-- Parse an integer JSON number (the fragment of JSON numbers this model
covers). -/
def parseNumber (cs : List Char) : Option (Int × List Char) :=
  match cs with
  | [] => none
  | c :: rest =>
    if c = '-' then
      match rest with
      | [] => none
      | d :: rest2 =>
        if d.isDigit then
          let p := parseDigits (d :: rest2) 0
          some (-(p.1 : Int), p.2)
        else none
    else if c.isDigit then
      let p := parseDigits (c :: rest) 0
      some ((p.1 : Int), p.2)
    else none

mutual

/-- Recursive-descent JSON value parser with recursion fuel. -/
def parseValue : Nat → List Char → Option (JSON × List Char)
  | 0, _ => none
  | fuel + 1, cs =>
    match skipWs cs with
    | [] => none
    | c :: rest =>
      if c = '"' then
        match parseStringBody rest with
        | some (s, r) => some (.str (String.mk s), r)
        | none => none
      else if c = '[' then
        match skipWs rest with
        | [] => none
        | c2 :: r2 =>
          if c2 = ']' then some (.arr [], r2)
          else
            match parseElems fuel (c2 :: r2) with
            | some (vs, r) => some (.arr vs, r)
            | none => none
      else if c = '{' then
        match skipWs rest with
        | [] => none
        | c2 :: r2 =>
          if c2 = '}' then some (.obj [], r2)
          else
            match parseMembers fuel (c2 :: r2) with
            | some (ms, r) => some (.obj ms, r)
            | none => none
      else if c = 'n' then
        match rest with
        | 'u' :: 'l' :: 'l' :: r => some (.null, r)
        | _ => none
      else if c = 't' then
        match rest with
        | 'r' :: 'u' :: 'e' :: r => some (.bool true, r)
        | _ => none
      else if c = 'f' then
        match rest with
        | 'a' :: 'l' :: 's' :: 'e' :: r => some (.bool false, r)
        | _ => none
      else
        match parseNumber (c :: rest) with
        | some (n, r) => some (.num n, r)
        | none => none

/-- Parse a non-empty comma-separated element list up to `]`. -/
def parseElems : Nat → List Char → Option (List JSON × List Char)
  | 0, _ => none
  | fuel + 1, cs =>
    match parseValue fuel cs with
    | some (v, r) =>
      match skipWs r with
      | [] => none
      | c :: r2 =>
        if c = ',' then
          match parseElems fuel r2 with
          | some (vs, r3) => some (v :: vs, r3)
          | none => none
        else if c = ']' then some ([v], r2)
        else none
    | none => none

/-- Parse a non-empty comma-separated member list up to `}`. -/
def parseMembers : Nat → List Char → Option (List (String × JSON) × List Char)
  | 0, _ => none
  | fuel + 1, cs =>
    match skipWs cs with
    | [] => none
    | c :: rest =>
      if c = '"' then
        match parseStringBody rest with
        | some (k, r) =>
          match skipWs r with
          | [] => none
          | c2 :: r2 =>
            if c2 = ':' then
              match parseValue fuel r2 with
              | some (v, r3) =>
                match skipWs r3 with
                | [] => none
                | c3 :: r4 =>
                  if c3 = ',' then
                    match parseMembers fuel r4 with
                    | some (ms, r5) => some ((String.mk k, v) :: ms, r5)
                    | none => none
                  else if c3 = '}' then some ([(String.mk k, v)], r4)
                  else none
              | none => none
            else none
        | none => none
      else none

end

/-- Model of `JSON.parse`: `none` models a thrown `SyntaxError`. -/
def jsonParse (cs : List Char) : Option JSON :=
  match parseValue (cs.length + 1) cs with
  | some (v, r) => if skipWs r = [] then some v else none
  | none => none

def jsonParseStr (s : String) : Option JSON := jsonParse s.data

/-! ## JavaScript string helpers -/

/-- Whitespace removed by JavaScript `String.prototype.trim` (the common
subset). -/
def isJsTrimWs (c : Char) : Bool :=
  c = ' ' || c = '\t' || c = '\n' || c = '\r' || c = '\x0b' || c = '\x0c'
    || c = ' ' || c = '﻿'

/-- Models `s.trim().length === 0`. -/
def jsTrimEmpty (s : String) : Bool := s.data.all isJsTrimWs

/-- Models `s.trim()`. -/
def jsTrim (s : String) : String :=
  String.mk (((s.data.dropWhile isJsTrimWs).reverse.dropWhile isJsTrimWs).reverse)

/-! ## Anthropic response model (anthropic-types.ts)

`AnthropicResponse.usage`: `cache_read_input_tokens = none` models the field
being absent from the emitted object.  The constant fields
`type: "message"`, `role: "assistant"` of the source are omitted. -/

structure AnthropicUsage where
  input_tokens : Int
  output_tokens : Int
  cache_read_input_tokens : Option Int := none
  deriving Repr, DecidableEq

inductive AnthropicAssistantContentBlock where
  | text (text : String)
  | thinking (thinking : String) (signature : Option String)
  | toolUse (id : String) (name : String) (input : JSON)
  deriving Repr

structure AnthropicResponse where
  id : String
  model : String
  content : List AnthropicAssistantContentBlock
  stop_reason : Option String
  stop_sequence : Option String
  usage : AnthropicUsage
  deriving Repr

/-! ## Responses result model (create-responses.ts)

`ResponsesResult` keeps exactly the fields the translators read.  An
`Option` field with value `none` models the field being absent or not of
the type the source checks for (`typeof`/`Array.isArray` guards). -/

structure ResponseUsage where
  input_tokens : Int
  output_tokens : Option Int := none
  input_tokens_details_cached_tokens : Option Int := none
  deriving Repr, DecidableEq

inductive ResponseOutputContentBlock where
  | outputText (text : String)
  | refusal (refusal : String)
  | other (text : Option String) (reasoningStr : Option String)
  deriving Repr

structure ResponseReasoningBlock where
  text : Option String := none
  thinking : Option String := none
  reasoningStr : Option String := none
  deriving Repr

/-- Output items; `message` also stands for the `output_text` item type
(handled identically by the translator), `other` is the default case for
unrecognized item types (carrying an optional `content`). -/
inductive ResponseOutputItem where
  | message (content : Option (List ResponseOutputContentBlock))
  | reasoning (reasoningBlocks : Option (List ResponseReasoningBlock))
      (summary : Option (List ResponseReasoningBlock))
      (encrypted_content : Option String)
      (thinking : Option String) (textField : Option String)
  | functionCall (id : String) (call_id : Option String) (name : String)
      (arguments : String)
  | functionCallOutput (output : Option String)
  | other (content : Option (List ResponseOutputContentBlock))
  deriving Repr

structure ResponsesResult where
  id : String
  model : String
  output : List ResponseOutputItem
  output_text : String := ""
  status : Option String := none
  incomplete_details_reason : Option String := none
  usage : Option ResponseUsage := none
  deriving Repr

/-! ## responses-translation.ts: Responses result → Anthropic response -/

/-- `parseFunctionCallArguments` (responses-translation.ts).  Returns the
record (association list) of the produced `Record<string, unknown>`; the
source never throws, which the model reflects by being a total function. -/
def parseFunctionCallArguments (rawArguments : String) :
    List (String × JSON) :=
  if jsTrimEmpty rawArguments then []
  else
    match jsonParseStr rawArguments with
    | some (.arr xs) => [("arguments", JSON.arr xs)]
    | some (.obj kvs) => kvs
    | _ => [("raw_arguments", JSON.str rawArguments)]

def combineMessageTextContent
    (content : Option (List ResponseOutputContentBlock)) : String :=
  match content with
  | none => ""
  | some blocks =>
    blocks.foldl (fun acc block =>
      match block with
      | .outputText t => acc ++ t
      | .refusal r => acc ++ r
      | .other (some t) _ => acc ++ t
      | .other none (some r) => acc ++ r
      | .other none none => acc) ""

/-- First string among `block.text`, `block.thinking`, `block.reasoning`
(the probe order of `collectFromBlocks`). -/
def reasoningBlockText (b : ResponseReasoningBlock) : Option String :=
  match b.text with
  | some t => some t
  | none =>
    match b.thinking with
    | some t => some t
    | none => b.reasoningStr

def collectFromBlocks (blocks : Option (List ResponseReasoningBlock)) :
    List String :=
  match blocks with
  | none => []
  | some l => l.filterMap reasoningBlockText

/-- `extractReasoningText`, over the reasoning item's fields
(`item.reasoning`, `item.summary`, `item.thinking`, `item.text`). -/
def extractReasoningText (reasoningBlocks summary :
    Option (List ResponseReasoningBlock))
    (thinking textField : Option String) : String :=
  let segments := collectFromBlocks reasoningBlocks ++ collectFromBlocks summary
    ++ thinking.toList ++ textField.toList
  jsTrim (String.join segments)

def createToolUseContentBlock (id : String) (callId : Option String)
    (name : String) (arguments : String) :
    Option AnthropicAssistantContentBlock :=
  let toolId := callId.getD id
  if name = "" ∨ toolId = "" then none
  else some (.toolUse toolId name (.obj (parseFunctionCallArguments arguments)))

def createFunctionCallOutputBlock (output : Option String) :
    Option AnthropicAssistantContentBlock :=
  match output with
  | some s => if s.length = 0 then none else some (.text s)
  | none => none

def fallbackContentBlocks (outputText : String) :
    List AnthropicAssistantContentBlock :=
  if outputText = "" then [] else [.text outputText]

def mapOutputToAnthropicContent (output : List ResponseOutputItem) :
    List AnthropicAssistantContentBlock :=
  output.foldl (fun acc item =>
    match item with
    | .reasoning rb sm _ th tf =>
      let thinkingText := extractReasoningText rb sm th tf
      if thinkingText.length > 0 then acc ++ [.thinking thinkingText none]
      else acc
    | .functionCall id cid name args =>
      match createToolUseContentBlock id cid name args with
      | some b => acc ++ [b]
      | none => acc
    | .functionCallOutput out =>
      match createFunctionCallOutputBlock out with
      | some b => acc ++ [b]
      | none => acc
    | .message content =>
      let t := combineMessageTextContent content
      if t.length > 0 then acc ++ [.text t] else acc
    | .other content =>
      let t := combineMessageTextContent content
      if t.length > 0 then acc ++ [.text t] else acc) []

def mapResponsesStopReason (r : ResponsesResult) : Option String :=
  if r.status = some "completed" then some "end_turn"
  else if r.status = some "incomplete" then
    if r.incomplete_details_reason = some "max_output_tokens" then
      some "max_tokens"
    else if r.incomplete_details_reason = some "content_filter" then
      some "end_turn"
    else if r.incomplete_details_reason = some "tool_use" then some "tool_use"
    else none
  else none

def mapResponsesUsage (r : ResponsesResult) : AnthropicUsage :=
  { input_tokens := (r.usage.map (·.input_tokens)).getD 0
    output_tokens := (r.usage.bind (·.output_tokens)).getD 0 }

def translateResponsesResultToAnthropic (r : ResponsesResult) :
    AnthropicResponse :=
  let contentBlocks := mapOutputToAnthropicContent r.output
  let usage := mapResponsesUsage r
  let anthropicContent :=
    if contentBlocks.length > 0 then contentBlocks
    else fallbackContentBlocks r.output_text
  { id := r.id
    model := r.model
    content := anthropicContent
    stop_reason := mapResponsesStopReason r
    stop_sequence := none
    usage := usage }

/-! ## Stream translator (responses-stream-translation, in
non-stream-translation.ts of the source pack)

Raw upstream events are `Record<string, unknown>`; each field the translator
reads is modelled as `Option JSON` (`none` = absent).  `response` is
modelled as `Option ResponsesResult`: `some` iff `toResponsesResult`
accepts the field (`isResponsesResult` validation folded into the type);
likewise `item`/`part` fold in the `isRecord` checks. -/

structure RawItem where
  type : Option JSON := none
  id : Option JSON := none
  call_id : Option JSON := none
  name : Option JSON := none
  arguments : Option JSON := none
  encrypted_content : Option JSON := none
  deriving Repr

structure RawPart where
  text : Option JSON := none
  deriving Repr

structure RawEvent where
  type : Option JSON := none
  response : Option ResponsesResult := none
  output_index : Option JSON := none
  content_index : Option JSON := none
  delta : Option JSON := none
  text : Option JSON := none
  arguments : Option JSON := none
  item_id : Option JSON := none
  item : Option RawItem := none
  part : Option RawPart := none
  error : Option JSON := none
  message : Option JSON := none
  deriving Repr

/-- Models `typeof v === "string" ? v : undefined`. -/
def jsTypeofString (v : Option JSON) : Option String :=
  match v with
  | some (.str s) => some s
  | _ => none

/-- Models `typeof v === "string" ? v : ""`. -/
def strOrEmpty (v : Option JSON) : String := (jsTypeofString v).getD ""

/-- Models JavaScript `Number(s)` restricted to integer literals: the empty
or whitespace-only string is `0`; an optionally signed digit string is its
value; anything else is `NaN` (modelled `none`). -/
def numFromString (s : String) : Option Int :=
  let t := ((s.data.dropWhile isJsTrimWs).reverse.dropWhile isJsTrimWs).reverse
  match t with
  | [] => some 0
  | '-' :: ds =>
    if (!ds.isEmpty) && ds.all (·.isDigit) then
      some (-(ds.foldl (fun a c => a * 10 + (c.toNat - 48)) 0 : Nat))
    else none
  | '+' :: ds =>
    if (!ds.isEmpty) && ds.all (·.isDigit) then
      some ((ds.foldl (fun a c => a * 10 + (c.toNat - 48)) 0 : Nat))
    else none
  | ds =>
    if ds.all (·.isDigit) then
      some ((ds.foldl (fun a c => a * 10 + (c.toNat - 48)) 0 : Nat))
    else none

/-- `toNonEmptyString` (non-stream-translation.ts). -/
def toNonEmptyString (v : Option JSON) : Option String :=
  match v with
  | some (.str s) => if s.length > 0 then some s else none
  | _ => none

/-- `toOptionalNumber`: a finite number, or a non-empty string accepted by
`Number`. -/
def toOptionalNumber (v : Option JSON) : Option Int :=
  match v with
  | some (.num n) => some n
  | some (.str s) => if s.length > 0 then numFromString s else none
  | _ => none

/-- `toNumber`: a finite number, a string accepted by `Number`, else 0. -/
def toNumber (v : Option JSON) : Int :=
  match v with
  | some (.num n) => n
  | some (.str s) => (numFromString s).getD 0
  | _ => 0

structure FunctionCallStreamState where
  blockIndex : Nat
  toolCallId : String
  name : String
  deriving Repr, DecidableEq

structure ResponsesStreamState where
  messageStartSent : Bool
  messageCompleted : Bool
  nextContentBlockIndex : Nat
  blockIndexByKey : List (String × Nat)
  openBlocks : List Nat
  blockHasDelta : List Nat
  currentResponseId : Option String := none
  currentModel : Option String := none
  initialInputTokens : Option Int := none
  initialInputCachedTokens : Option Int := none
  functionCallStateByOutputIndex : List (Int × FunctionCallStreamState)
  functionCallOutputIndexByItemId : List (String × Int)
  deriving Repr

def createResponsesStreamState : ResponsesStreamState :=
  { messageStartSent := false
    messageCompleted := false
    nextContentBlockIndex := 0
    blockIndexByKey := []
    openBlocks := []
    blockHasDelta := []
    functionCallStateByOutputIndex := []
    functionCallOutputIndexByItemId := [] }

/-- Client-side Anthropic SSE events (`AnthropicStreamEventData`).  The
`tool_use` `content_block_start` always carries `input: {}` in the source,
so the field is omitted. -/
inductive ContentBlockInit where
  | text
  | thinking
  | toolUse (id : String) (name : String)
  deriving Repr, DecidableEq

inductive BlockDelta where
  | textDelta (text : String)
  | thinkingDelta (thinking : String)
  | inputJsonDelta (partialJson : String)
  | signatureDelta (signature : String)
  deriving Repr, DecidableEq

structure MessageStartInfo where
  id : String
  model : String
  inputTokens : Int
  outputTokens : Int
  cacheCreationInputTokens : Option Int
  deriving Repr, DecidableEq

inductive AnthropicStreamEvent where
  | messageStart (info : MessageStartInfo)
  | contentBlockStart (index : Nat) (block : ContentBlockInit)
  | contentBlockDelta (index : Nat) (delta : BlockDelta)
  | contentBlockStop (index : Nat)
  | messageDelta (stopReason stopSequence : Option String)
      (usage : Option AnthropicUsage)
  | messageStop
  | errorEvent (message : String)
  deriving Repr, DecidableEq

/-- `buildErrorEvent` (the `error.type` is the constant `"api_error"`). -/
def buildErrorEvent (message : String) : AnthropicStreamEvent :=
  .errorEvent message

/-- JS `Map.set`: replace in place or append. -/
def assocSet {α β : Type} [BEq α] : List (α × β) → α → β → List (α × β)
  | [], k, v => [(k, v)]
  | (k', v') :: t, k, v =>
    if k' == k then (k, v) :: t else (k', v') :: assocSet t k v

/-- JS `Map.delete`. -/
def assocDelete {α β : Type} [BEq α] (m : List (α × β)) (k : α) :
    List (α × β) :=
  m.filter (fun p => !(p.1 == k))

/-- JS `Set.add` (guarded: a `Set` holds no duplicates). -/
def setAdd (l : List Nat) (b : Nat) : List Nat :=
  if l.contains b then l else l ++ [b]

def getBlockKey (outputIndex contentIndex : Int) : String :=
  toString outputIndex ++ ":" ++ toString contentIndex

def cacheResponseMetadata (s : ResponsesStreamState) (r : ResponsesResult) :
    ResponsesStreamState :=
  { s with
    currentResponseId := some r.id
    currentModel := some r.model
    initialInputTokens := some ((r.usage.map (·.input_tokens)).getD 0)
    initialInputCachedTokens :=
      r.usage.bind (·.input_tokens_details_cached_tokens) }

def ensureMessageStart (s : ResponsesStreamState)
    (response : Option ResponsesResult) :
    ResponsesStreamState × List AnthropicStreamEvent :=
  if s.messageStartSent then (s, [])
  else
    let s1 := match response with
      | some r => cacheResponseMetadata s r
      | none => s
    let id := match response with
      | some r => r.id
      | none => s1.currentResponseId.getD "response"
    let model := match response with
      | some r => r.model
      | none => s1.currentModel.getD ""
    let s2 := { s1 with messageStartSent := true }
    let inputTokens :=
      (s2.initialInputTokens.getD 0) - (s2.initialInputCachedTokens.getD 0)
    (s2,
      [.messageStart
        { id := id
          model := model
          inputTokens := inputTokens
          outputTokens := 0
          cacheCreationInputTokens := s2.initialInputCachedTokens }])

structure OpenBlockResult where
  state : ResponsesStreamState
  events : List AnthropicStreamEvent
  blockIndex : Nat
  deriving Repr

def openTextBlockIfNeeded (s : ResponsesStreamState)
    (outputIndex contentIndex : Int) : OpenBlockResult :=
  let key := getBlockKey outputIndex contentIndex
  let alloc : ResponsesStreamState × Nat :=
    match s.blockIndexByKey.lookup key with
    | some b => (s, b)
    | none =>
      let b := s.nextContentBlockIndex
      ({ s with
          nextContentBlockIndex := b + 1
          blockIndexByKey := assocSet s.blockIndexByKey key b }, b)
  let s1 := alloc.1
  let blockIndex := alloc.2
  if s1.openBlocks.contains blockIndex then
    { state := s1, events := [], blockIndex := blockIndex }
  else
    { state := { s1 with openBlocks := setAdd s1.openBlocks blockIndex }
      events := [.contentBlockStart blockIndex .text]
      blockIndex := blockIndex }

def openThinkingBlockIfNeeded (s : ResponsesStreamState)
    (outputIndex : Int) : OpenBlockResult :=
  let contentIndex : Int := 0
  let key := getBlockKey outputIndex contentIndex
  let alloc : ResponsesStreamState × Nat :=
    match s.blockIndexByKey.lookup key with
    | some b => (s, b)
    | none =>
      let b := s.nextContentBlockIndex
      ({ s with
          nextContentBlockIndex := b + 1
          blockIndexByKey := assocSet s.blockIndexByKey key b }, b)
  let s1 := alloc.1
  let blockIndex := alloc.2
  if s1.openBlocks.contains blockIndex then
    { state := s1, events := [], blockIndex := blockIndex }
  else
    { state := { s1 with openBlocks := setAdd s1.openBlocks blockIndex }
      events := [.contentBlockStart blockIndex .thinking]
      blockIndex := blockIndex }

def closeBlockIfOpen (s : ResponsesStreamState) (blockIndex : Nat) :
    ResponsesStreamState × List AnthropicStreamEvent :=
  if s.openBlocks.contains blockIndex then
    ({ s with
        openBlocks := s.openBlocks.erase blockIndex
        blockHasDelta := s.blockHasDelta.erase blockIndex },
      [.contentBlockStop blockIndex])
  else (s, [])

def closeAllOpenBlocks (s : ResponsesStreamState) :
    ResponsesStreamState × List AnthropicStreamEvent :=
  ({ s with
      openBlocks := []
      blockHasDelta :=
        s.blockHasDelta.filter (fun b => !(s.openBlocks.contains b))
      functionCallStateByOutputIndex := []
      functionCallOutputIndexByItemId := [] },
    s.openBlocks.map (fun b => .contentBlockStop b))

def resolveFunctionCallOutputIndex (s : ResponsesStreamState)
    (r : RawEvent) : Option Int :=
  let fromIndex :=
    match r.output_index with
    | some (.num n) => some n
    | some (.str str) => if str.length > 0 then numFromString str else none
    | _ => none
  match fromIndex with
  | some n => some n
  | none =>
    match toNonEmptyString r.item_id with
    | some itemId => s.functionCallOutputIndexByItemId.lookup itemId
    | none => none

def openFunctionCallBlock (s : ResponsesStreamState) (outputIndex : Int)
    (toolCallId name : Option String) : OpenBlockResult :=
  let alloc : ResponsesStreamState × FunctionCallStreamState :=
    match s.functionCallStateByOutputIndex.lookup outputIndex with
    | some f => (s, f)
    | none =>
      let blockIndex := s.nextContentBlockIndex
      let resolvedToolCallId :=
        toolCallId.getD ("tool_call_" ++ toString blockIndex)
      let resolvedName := name.getD "function"
      let f : FunctionCallStreamState :=
        { blockIndex := blockIndex
          toolCallId := resolvedToolCallId
          name := resolvedName }
      ({ s with
          nextContentBlockIndex := blockIndex + 1
          functionCallStateByOutputIndex :=
            assocSet s.functionCallStateByOutputIndex outputIndex f
          functionCallOutputIndexByItemId :=
            assocSet s.functionCallOutputIndexByItemId resolvedToolCallId
              outputIndex }, f)
  let s1 := alloc.1
  let f := alloc.2
  if s1.openBlocks.contains f.blockIndex then
    { state := s1, events := [], blockIndex := f.blockIndex }
  else
    { state := { s1 with openBlocks := setAdd s1.openBlocks f.blockIndex }
      events := [.contentBlockStart f.blockIndex (.toolUse f.toolCallId f.name)]
      blockIndex := f.blockIndex }

structure FunctionCallDetails where
  outputIndex : Int
  toolCallId : String
  name : String
  initialArguments : Option String
  itemId : Option String
  deriving Repr

def extractFunctionCallDetails (r : RawEvent) (s : ResponsesStreamState) :
    Option FunctionCallDetails :=
  match r.item with
  | none => none
  | some item =>
    match jsTypeofString item.type with
    | none => none
    | some itemType =>
      if itemType = "function_call" then
        match resolveFunctionCallOutputIndex s r with
        | none => none
        | some outputIndex =>
          let callId := toNonEmptyString item.call_id
          let itemId := toNonEmptyString item.id
          let name := (toNonEmptyString item.name).getD "function"
          let toolCallId :=
            callId.getD (itemId.getD ("tool_call_" ++ toString outputIndex))
          let initialArguments := jsTypeofString item.arguments
          some
            { outputIndex := outputIndex
              toolCallId := toolCallId
              name := name
              initialArguments := initialArguments
              itemId := itemId }
      else none

/-! ### Event handlers -/

def handleResponseCreated (r : RawEvent) (s : ResponsesStreamState) :
    ResponsesStreamState × List AnthropicStreamEvent :=
  let s1 := match r.response with
    | some resp => cacheResponseMetadata s resp
    | none => s
  ensureMessageStart s1 r.response

def handleOutputItemAdded (r : RawEvent) (s : ResponsesStreamState) :
    ResponsesStreamState × List AnthropicStreamEvent :=
  let ms := ensureMessageStart s r.response
  let s1 := ms.1
  let events := ms.2
  match extractFunctionCallDetails r s1 with
  | none => (s1, events)
  | some d =>
    let s2 := match d.itemId with
      | some iid =>
        { s1 with functionCallOutputIndexByItemId :=
            assocSet s1.functionCallOutputIndexByItemId iid d.outputIndex }
      | none => s1
    let o := openFunctionCallBlock s2 d.outputIndex (some d.toolCallId)
      (some d.name)
    match d.initialArguments with
    | some a =>
      if a.length > 0 then
        ({ o.state with blockHasDelta := setAdd o.state.blockHasDelta o.blockIndex },
          events ++ o.events
            ++ [.contentBlockDelta o.blockIndex (.inputJsonDelta a)])
      else (o.state, events ++ o.events)
    | none => (o.state, events ++ o.events)

def handleOutputItemDone (r : RawEvent) (s : ResponsesStreamState) :
    ResponsesStreamState × List AnthropicStreamEvent :=
  let ms := ensureMessageStart s none
  let s1 := ms.1
  let events := ms.2
  match r.item with
  | none => (s1, events)
  | some item =>
    if jsTypeofString item.type ≠ some "reasoning" then (s1, events)
    else
      let outputIndex := toNumber r.output_index
      let o := openThinkingBlockIfNeeded s1 outputIndex
      let signature := strOrEmpty item.encrypted_content
      let withSig :
          ResponsesStreamState × List AnthropicStreamEvent :=
        if signature ≠ "" then
          ({ o.state with
              blockHasDelta := setAdd o.state.blockHasDelta o.blockIndex },
            o.events
              ++ [.contentBlockDelta o.blockIndex (.signatureDelta signature)])
        else (o.state, o.events)
      let closed := closeBlockIfOpen withSig.1 o.blockIndex
      (closed.1, events ++ withSig.2 ++ closed.2)

def handleFunctionCallArgumentsDelta (r : RawEvent)
    (s : ResponsesStreamState) :
    ResponsesStreamState × List AnthropicStreamEvent :=
  let ms := ensureMessageStart s none
  let s1 := ms.1
  let events := ms.2
  match resolveFunctionCallOutputIndex s1 r with
  | none => (s1, events)
  | some outputIndex =>
    let deltaText := strOrEmpty r.delta
    if deltaText = "" then (s1, events)
    else
      let o := openFunctionCallBlock s1 outputIndex none none
      ({ o.state with
          blockHasDelta := setAdd o.state.blockHasDelta o.blockIndex },
        events ++ o.events
          ++ [.contentBlockDelta o.blockIndex (.inputJsonDelta deltaText)])

def handleFunctionCallArgumentsDone (r : RawEvent)
    (s : ResponsesStreamState) :
    ResponsesStreamState × List AnthropicStreamEvent :=
  let ms := ensureMessageStart s none
  let s1 := ms.1
  let events := ms.2
  match resolveFunctionCallOutputIndex s1 r with
  | none => (s1, events)
  | some outputIndex =>
    let o := openFunctionCallBlock s1 outputIndex none none
    let finalArguments := jsTypeofString r.arguments
    let withFinal :
        ResponsesStreamState × List AnthropicStreamEvent :=
      match finalArguments with
      | some a =>
        if (!(o.state.blockHasDelta.contains o.blockIndex)) && (a ≠ "") then
          ({ o.state with
              blockHasDelta := setAdd o.state.blockHasDelta o.blockIndex },
            o.events
              ++ [.contentBlockDelta o.blockIndex (.inputJsonDelta a)])
        else (o.state, o.events)
      | none => (o.state, o.events)
    let closed := closeBlockIfOpen withFinal.1 o.blockIndex
    let s3 := closed.1
    let s4 :=
      match s3.functionCallStateByOutputIndex.lookup outputIndex with
      | some existing =>
        { s3 with functionCallOutputIndexByItemId :=
            assocDelete s3.functionCallOutputIndexByItemId existing.toolCallId }
      | none => s3
    let s5 :=
      { s4 with functionCallStateByOutputIndex :=
          assocDelete s4.functionCallStateByOutputIndex outputIndex }
    let s6 :=
      match toNonEmptyString r.item_id with
      | some itemId =>
        { s5 with functionCallOutputIndexByItemId :=
            assocDelete s5.functionCallOutputIndexByItemId itemId }
      | none => s5
    (s6, events ++ withFinal.2 ++ closed.2)

def handleOutputTextDelta (r : RawEvent) (s : ResponsesStreamState) :
    ResponsesStreamState × List AnthropicStreamEvent :=
  let ms := ensureMessageStart s none
  let s1 := ms.1
  let events := ms.2
  let outputIndex := toNumber r.output_index
  let contentIndex := toNumber r.content_index
  let deltaText := strOrEmpty r.delta
  if deltaText = "" then (s1, events)
  else
    let o := openTextBlockIfNeeded s1 outputIndex contentIndex
    ({ o.state with
        blockHasDelta := setAdd o.state.blockHasDelta o.blockIndex },
      events ++ o.events
        ++ [.contentBlockDelta o.blockIndex (.textDelta deltaText)])

def handleReasoningSummaryTextDelta (r : RawEvent)
    (s : ResponsesStreamState) :
    ResponsesStreamState × List AnthropicStreamEvent :=
  let ms := ensureMessageStart s none
  let s1 := ms.1
  let events := ms.2
  let outputIndex := toNumber r.output_index
  let deltaText := strOrEmpty r.delta
  if deltaText = "" then (s1, events)
  else
    let o := openThinkingBlockIfNeeded s1 outputIndex
    ({ o.state with
        blockHasDelta := setAdd o.state.blockHasDelta o.blockIndex },
      events ++ o.events
        ++ [.contentBlockDelta o.blockIndex (.thinkingDelta deltaText)])

def handleReasoningSummaryPartDone (r : RawEvent)
    (s : ResponsesStreamState) :
    ResponsesStreamState × List AnthropicStreamEvent :=
  let ms := ensureMessageStart s none
  let s1 := ms.1
  let events := ms.2
  let outputIndex := toNumber r.output_index
  let text := match r.part with
    | some p => strOrEmpty p.text
    | none => ""
  let o := openThinkingBlockIfNeeded s1 outputIndex
  if text ≠ "" ∧ ¬(o.state.blockHasDelta.contains o.blockIndex) then
    (o.state,
      events ++ o.events
        ++ [.contentBlockDelta o.blockIndex (.thinkingDelta text)])
  else (o.state, events ++ o.events)

def handleOutputTextDone (r : RawEvent) (s : ResponsesStreamState) :
    ResponsesStreamState × List AnthropicStreamEvent :=
  let ms := ensureMessageStart s none
  let s1 := ms.1
  let events := ms.2
  let outputIndex := toNumber r.output_index
  let contentIndex := toNumber r.content_index
  let text := strOrEmpty r.text
  let o := openTextBlockIfNeeded s1 outputIndex contentIndex
  let withText :
      ResponsesStreamState × List AnthropicStreamEvent :=
    if text ≠ "" ∧ ¬(o.state.blockHasDelta.contains o.blockIndex) then
      (o.state,
        o.events ++ [.contentBlockDelta o.blockIndex (.textDelta text)])
    else (o.state, o.events)
  let closed := closeBlockIfOpen withText.1 o.blockIndex
  (closed.1, events ++ withText.2 ++ closed.2)

def handleResponseCompleted (r : RawEvent) (s : ResponsesStreamState) :
    ResponsesStreamState × List AnthropicStreamEvent :=
  let ms := ensureMessageStart s r.response
  let s1 := ms.1
  let events := ms.2
  let closedAll := closeAllOpenBlocks s1
  let s2 := closedAll.1
  let deltaEvents :=
    match r.response with
    | some resp =>
      let anthropic := translateResponsesResultToAnthropic resp
      [AnthropicStreamEvent.messageDelta anthropic.stop_reason
        anthropic.stop_sequence (some anthropic.usage)]
    | none => [AnthropicStreamEvent.messageDelta none none none]
  ({ s2 with messageCompleted := true },
    events ++ closedAll.2 ++ deltaEvents ++ [.messageStop])

def handleResponseFailed (r : RawEvent) (s : ResponsesStreamState) :
    ResponsesStreamState × List AnthropicStreamEvent :=
  let ms := ensureMessageStart s r.response
  let s1 := ms.1
  let events := ms.2
  let closedAll := closeAllOpenBlocks s1
  let s2 := closedAll.1
  let message := match r.error with
    | some (.str m) => m
    | _ => "Response generation failed."
  ({ s2 with messageCompleted := true },
    events ++ closedAll.2 ++ [buildErrorEvent message])

def handleErrorEvent (r : RawEvent) (s : ResponsesStreamState) :
    ResponsesStreamState × List AnthropicStreamEvent :=
  let message := match jsTypeofString r.message with
    | some m => m
    | none => "An unexpected error occurred during streaming."
  ({ s with messageCompleted := true }, [buildErrorEvent message])

/-- `translateResponsesStreamEvent`: one upstream event in, client events
out (returned together with the updated state instead of mutating it). -/
def translateResponsesStreamEvent (r : RawEvent)
    (s : ResponsesStreamState) :
    ResponsesStreamState × List AnthropicStreamEvent :=
  match jsTypeofString r.type with
  | none => (s, [])
  | some t =>
    if t = "response.created" then handleResponseCreated r s
    else if t = "response.reasoning_summary_text.delta" then
      handleReasoningSummaryTextDelta r s
    else if t = "response.output_text.delta" then handleOutputTextDelta r s
    else if t = "response.reasoning_summary_part.done" then
      handleReasoningSummaryPartDone r s
    else if t = "response.output_text.done" then handleOutputTextDone r s
    else if t = "response.output_item.added" then handleOutputItemAdded r s
    else if t = "response.output_item.done" then handleOutputItemDone r s
    else if t = "response.function_call_arguments.delta" then
      handleFunctionCallArgumentsDelta r s
    else if t = "response.function_call_arguments.done" then
      handleFunctionCallArgumentsDone r s
    else if t = "response.completed" then handleResponseCompleted r s
    else if t = "response.incomplete" then handleResponseCompleted r s
    else if t = "response.failed" then handleResponseFailed r s
    else if t = "error" then handleErrorEvent r s
    else (s, [])

/-- Feed a whole upstream event list through the translator (no driver
logic: every event is processed). -/
def translateEvents : List RawEvent → ResponsesStreamState →
    ResponsesStreamState × List AnthropicStreamEvent
  | [], s => (s, [])
  | e :: es, s =>
    let step := translateResponsesStreamEvent e s
    let rest := translateEvents es step.1
    (rest.1, step.2 ++ rest.2)

def syntheticEndError : AnthropicStreamEvent :=
  buildErrorEvent "Responses stream ended without completion"

/-- The driving loop of the messages handler: stops after
`messageCompleted` is set, and appends a synthetic terminal error event
when the upstream stream ends without completion. -/
def runStream (s : ResponsesStreamState) :
    List RawEvent → List AnthropicStreamEvent
  | [] => if s.messageCompleted then [] else [syntheticEndError]
  | e :: es =>
    let step := translateResponsesStreamEvent e s
    step.2 ++ (if step.1.messageCompleted then [] else runStream step.1 es)

/-- Client event stream produced for a full upstream stream. -/
def translateStream (es : List RawEvent) : List AnthropicStreamEvent :=
  runStream createResponsesStreamState es

/-! ## ChatCompletions model (create-chat-completions.ts) -/

inductive ContentPart where
  | text (text : String)
  | imageUrl (url : String)
  deriving Repr, DecidableEq

/-- `Message.content`: a string, a part list, or `null`. -/
inductive MessageContent where
  | str (s : String)
  | parts (ps : List ContentPart)
  | nullContent
  deriving Repr, DecidableEq

/-- A tool call (`type: "function"` constant omitted). -/
structure ToolCall where
  id : String
  function_name : String
  function_arguments : String
  deriving Repr, DecidableEq

structure ChatMessage where
  role : String
  content : MessageContent
  tool_call_id : Option String := none
  tool_calls : Option (List ToolCall) := none
  reasoning_text : Option String := none
  reasoning_opaque : Option String := none
  deriving Repr, DecidableEq

structure ChatChoice where
  message : ChatMessage
  finish_reason : Option String := none
  deriving Repr, DecidableEq

structure PromptTokensDetails where
  cached_tokens : Option Int := none
  deriving Repr, DecidableEq

structure ChatUsage where
  prompt_tokens : Option Int := none
  completion_tokens : Option Int := none
  prompt_tokens_details : Option PromptTokensDetails := none
  deriving Repr, DecidableEq

structure ChatCompletionResponse where
  id : String
  model : String
  choices : List ChatChoice
  usage : Option ChatUsage := none
  deriving Repr, DecidableEq

/-! ## non-stream-translation.ts: ChatCompletions response → Anthropic -/

/-- Modelled from the spec: `mapOpenAIStopReasonToAnthropic` lives in
src/routes/messages/utils.ts, which is not among the provided sources.
Per spec §4.3/§8 scenarios: `stop → end_turn`, `tool_calls → tool_use`,
`length → max_tokens` (`max_tokens` being the only Anthropic reason for a
length cut), anything else defaulting to `end_turn`, `null → null`.  No
claim depends on the exact value of this mapping. -/
def mapOpenAIStopReasonToAnthropic : Option String → Option String
  | some "stop" => some "end_turn"
  | some "length" => some "max_tokens"
  | some "tool_calls" => some "tool_use"
  | some _ => some "end_turn"
  | none => none

def getAnthropicTextBlocks (messageContent : MessageContent) :
    List AnthropicAssistantContentBlock :=
  match messageContent with
  | .str s => if s.length > 0 then [.text s] else []
  | .parts ps =>
    ps.filterMap (fun p =>
      match p with
      | .text t => some (.text t)
      | _ => none)
  | .nullContent => []

def getAnthropicThinkBlocks (reasoningText reasoningOpaque : Option String) :
    List AnthropicAssistantContentBlock :=
  let opaqueOnly : List AnthropicAssistantContentBlock :=
    match reasoningOpaque with
    | some s => if s.length > 0 then [.thinking "" (some s)] else []
    | none => []
  match reasoningText with
  | some t =>
    if t.length > 0 then [.thinking t (some (reasoningOpaque.getD ""))]
    else opaqueOnly
  | none => opaqueOnly

/-- `getAnthropicToolUseBlocks` calls `JSON.parse(arguments)` with no
`try`/`catch`: a parse failure is a thrown exception, modelled `.error`. -/
def getAnthropicToolUseBlocks (toolCalls : Option (List ToolCall)) :
    Except String (List AnthropicAssistantContentBlock) :=
  match toolCalls with
  | none => .ok []
  | some tcs =>
    tcs.mapM (fun tc =>
      match jsonParseStr tc.function_arguments with
      | some v =>
        Except.ok (AnthropicAssistantContentBlock.toolUse tc.id
          tc.function_name v)
      | none =>
        Except.error ("SyntaxError: Unexpected token in JSON: "
          ++ tc.function_arguments))

/-- One iteration of the choice loop of `translateToAnthropic`: collect the
choice's blocks (thinking, then text, then tool_use) and update the running
stop reason (`tool_calls` wins; a current value of `"stop"` is replaced). -/
def translateChoiceStep
    (acc : List AnthropicAssistantContentBlock × Option String)
    (choice : ChatChoice) :
    Except String (List AnthropicAssistantContentBlock × Option String) := do
  let textBlocks := getAnthropicTextBlocks choice.message.content
  let thingBlocks := getAnthropicThinkBlocks choice.message.reasoning_text
    choice.message.reasoning_opaque
  let toolUseBlocks ← getAnthropicToolUseBlocks choice.message.tool_calls
  let stopReason :=
    if choice.finish_reason = some "tool_calls" ∨ acc.2 = some "stop" then
      choice.finish_reason
    else acc.2
  pure (acc.1 ++ thingBlocks ++ textBlocks ++ toolUseBlocks, stopReason)

/-- `translateToAnthropic` (ChatCompletions → Anthropic, non-streaming).
`.error` models the `JSON.parse` exception escaping the function. -/
def translateToAnthropic (response : ChatCompletionResponse) :
    Except String AnthropicResponse :=
  let initStop : Option String := response.choices.head?.bind (·.finish_reason)
  (response.choices.foldlM translateChoiceStep ([], initStop)).map
    (fun (acc : List AnthropicAssistantContentBlock × Option String) =>
      { id := response.id
        model := response.model
        content := acc.1
        stop_reason := mapOpenAIStopReasonToAnthropic acc.2
        stop_sequence := none
        usage :=
          { input_tokens :=
              ((response.usage.bind (·.prompt_tokens)).getD 0)
                - (((response.usage.bind (·.prompt_tokens_details)).bind
                    (·.cached_tokens)).getD 0)
            output_tokens := (response.usage.bind (·.completion_tokens)).getD 0
            cache_read_input_tokens :=
              (response.usage.bind (·.prompt_tokens_details)).bind
                (·.cached_tokens) } })

/-! ## non-stream-translation.ts: Anthropic user message → ChatCompletions

The Anthropic user content blocks (anthropic-types.ts is not in the source
pack; the shapes are those the translator reads per spec §3):
text, image, and tool_result, whose own `content` is again a string or a
block list. -/

mutual

inductive AnthropicUserContentBlock where
  | text (text : String)
  | image (mediaType : String) (data : String)
  | toolResult (toolUseId : String) (content : AnthropicMessageContent)
      (isError : Bool)

inductive AnthropicMessageContent where
  | str (s : String)
  | blocks (bs : List AnthropicUserContentBlock)

end

def isToolResultBlock : AnthropicUserContentBlock → Bool
  | .toolResult _ _ _ => true
  | _ => false

/-- `mapContent`: flatten to a string when no image block is present, else
an ordered part list (non-text/image blocks are dropped). -/
def mapContent (content : AnthropicMessageContent) : MessageContent :=
  match content with
  | .str s => .str s
  | .blocks bs =>
    let hasImage := bs.any (fun b =>
      match b with
      | .image _ _ => true
      | _ => false)
    if !hasImage then
      .str (String.intercalate "\n\n" (bs.filterMap (fun b =>
        match b with
        | .text t => some t
        | _ => none)))
    else
      .parts (bs.filterMap (fun b =>
        match b with
        | .text t => some (.text t)
        | .image m d => some (.imageUrl ("data:" ++ m ++ ";base64," ++ d))
        | _ => none))

/-- The `role=tool` message a tool_result block becomes (and `none` for
every other block kind). -/
def toolResultMessage (b : AnthropicUserContentBlock) : Option ChatMessage :=
  match b with
  | .toolResult toolUseId c _ =>
    some { role := "tool"
           tool_call_id := some toolUseId
           content := mapContent c }
  | _ => none

/-- The `tool_use_id` of a tool_result block. -/
def toolResultId : AnthropicUserContentBlock → Option String
  | .toolResult toolUseId _ _ => some toolUseId
  | _ => none

/-- `handleUserMessage`: tool_result blocks first (one `role=tool` message
each), then a single `role=user` message from the remaining blocks when
any remain. -/
def handleUserMessage (content : AnthropicMessageContent) :
    List ChatMessage :=
  match content with
  | .blocks bs =>
    let toolResultMessages := bs.filterMap toolResultMessage
    let otherBlocks := bs.filter (fun b => !(isToolResultBlock b))
    toolResultMessages
      ++ (if otherBlocks.length > 0 then
            [{ role := "user", content := mapContent (.blocks otherBlocks) }]
          else [])
  | .str s => [{ role := "user", content := mapContent (.str s) }]

/-! ## count-tokens-handler.ts -/

structure AnthropicTool where
  name : String
  deriving Repr, DecidableEq

structure CountTokensPayload where
  model : String
  tools : Option (List AnthropicTool) := none
  deriving Repr

structure TokenCount where
  input : Int
  output : Int
  deriving Repr, DecidableEq

/-- A handler response: a JSON 200 body, or an error-shaped 4xx body (the
count-tokens handler never constructs the latter). -/
inductive HttpResponse where
  | ok (input_tokens : Int)
  | clientError (status : Nat) (body : String)
  deriving Repr, DecidableEq

/-- JavaScript `String.prototype.startsWith`, computably on the character
lists. -/
def jsStartsWith (s p : String) : Bool := p.data.isPrefixOf s.data

/-- `Math.round` over exact rationals (`⌊x + 1/2⌋`, ties away from zero
for the non-negative arguments that occur here).  The source computes
`x * 1.15` in binary floating point; the model multiplies by the exact
rational 115/100. -/
def jsMathRound (x : ℚ) : Int := Int.floor (x + 1 / 2)

/-- The `mcpToolExist` check: performed only when the `anthropic-beta`
header starts with `claude-code`. -/
def mcpToolExistCheck (anthropicBeta : Option String)
    (tools : List AnthropicTool) : Bool :=
  match anthropicBeta with
  | some beta =>
    if jsStartsWith beta "claude-code" then
      tools.any (fun t => jsStartsWith t.name "mcp__")
    else false
  | none => false

/-- The token-count adjustment of `handleCountTokens` after a successful
tokenizer call. -/
def countTokensResult (anthropicBeta : Option String)
    (payload : CountTokensPayload) (tokenCount : TokenCount) : Int :=
  let tc :=
    match payload.tools with
    | some tools =>
      if tools.length > 0 then
        let mcpToolExist := mcpToolExistCheck anthropicBeta tools
        if !mcpToolExist then
          if jsStartsWith payload.model "claude" then
            { tokenCount with input := tokenCount.input + 346 }
          else if jsStartsWith payload.model "grok" then
            { tokenCount with input := tokenCount.input + 480 }
          else tokenCount
        else tokenCount
      else tokenCount
    | none => tokenCount
  let finalTokenCount : Int := tc.input + tc.output
  if jsStartsWith payload.model "claude" then
    jsMathRound ((finalTokenCount : ℚ) * (115 / 100))
  else if jsStartsWith payload.model "grok" then
    jsMathRound ((finalTokenCount : ℚ) * (103 / 100))
  else finalTokenCount

/-- `handleCountTokens`.  The request-body read and the tokenizer are the
fallible collaborators (`await c.req.json()`, `getTokenCount`): each is
passed in as its result-or-thrown-exception; `models` is
`state.models?.data` reduced to the id list the handler's `find` consults.
The surrounding `try`/`catch` turns any exception into `{input_tokens: 1}`. -/
def handleCountTokens (anthropicBeta : Option String)
    (body : Except Unit CountTokensPayload) (models : Option (List String))
    (tokenizer : Except Unit TokenCount) : HttpResponse :=
  match body with
  | .error _ => .ok 1
  | .ok payload =>
    match models with
    | none => .ok 1
    | some ms =>
      match ms.find? (fun m => m = payload.model) with
      | none => .ok 1
      | some _ =>
        match tokenizer with
        | .error _ => .ok 1
        | .ok tokenCount =>
          .ok (countTokensResult anthropicBeta payload tokenCount)

/-! ## Concrete instances used by witnesses and counterexamples -/

/-- A tool call whose `function.arguments` is not valid JSON. -/
def badToolCall : ToolCall :=
  { id := "t1", function_name := "f", function_arguments := "not json" }

def badToolCallMessage : ChatMessage :=
  { role := "assistant"
    content := .nullContent
    tool_calls := some [badToolCall] }

/-- An upstream ChatCompletions response carrying `badToolCall`. -/
def badArgumentsResponse : ChatCompletionResponse :=
  { id := "r1"
    model := "m"
    choices := [{ message := badToolCallMessage, finish_reason := some "tool_calls" }] }

def goodToolCall : ToolCall :=
  { id := "t1", function_name := "f"
    function_arguments := "\x7b\"x\":1\x7d" }

def goodToolCallMessage : ChatMessage :=
  { role := "assistant"
    content := .nullContent
    tool_calls := some [goodToolCall]
    reasoning_text := some "think" }

def scenario5Usage : ChatUsage :=
  { prompt_tokens := some 5
    completion_tokens := some 2
    prompt_tokens_details := some { cached_tokens := some 1 } }

/-- The upstream response of spec §8 scenario 5. -/
def scenario5Response : ChatCompletionResponse :=
  { id := "r1"
    model := "m"
    choices := [{ message := goodToolCallMessage, finish_reason := some "tool_calls" }]
    usage := some scenario5Usage }

/-- The Anthropic response scenario 5 translates to. -/
def scenario5Anthropic : AnthropicResponse :=
  { id := "r1"
    model := "m"
    content := [.thinking "think" (some ""),
      .toolUse "t1" "f" (.obj [("x", .num 1)])]
    stop_reason := some "tool_use"
    stop_sequence := none
    usage := { input_tokens := 4, output_tokens := 2,
               cache_read_input_tokens := some 1 } }

/-- `response.output_text.delta` upstream event. -/
def evTextDelta : RawEvent :=
  { type := some (.str "response.output_text.delta")
    output_index := some (.num 0)
    content_index := some (.num 0)
    delta := some (.str "he") }

/-- `response.output_text.delta` with no `content_index` field. -/
def evTextDeltaNoCI : RawEvent :=
  { type := some (.str "response.output_text.delta")
    output_index := some (.num 0)
    delta := some (.str "b") }

/-- `response.reasoning_summary_text.delta` upstream event. -/
def evReasoningDelta : RawEvent :=
  { type := some (.str "response.reasoning_summary_text.delta")
    output_index := some (.num 0)
    delta := some (.str "a") }

/-- The defaulted `message_start` payload (no metadata cached). -/
def defaultMessageStartInfo : MessageStartInfo :=
  { id := "response"
    model := ""
    inputTokens := 0
    outputTokens := 0
    cacheCreationInputTokens := none }

/-- A terminal `error` upstream event. -/
def evError : RawEvent := { type := some (.str "error") }

/-- `response.completed` upstream event (no `response` payload). -/
def evCompleted : RawEvent := { type := some (.str "response.completed") }

/-! ### Stream-event classifiers and counters -/

/-- Is this client event a `content_block_start`? -/
def isContentBlockStart : AnthropicStreamEvent → Bool
  | .contentBlockStart _ _ => true
  | _ => false

/-- Is this client event a `content_block_stop`? -/
def isContentBlockStop : AnthropicStreamEvent → Bool
  | .contentBlockStop _ => true
  | _ => false

/-- Is this client event a `message_start`? -/
def isMessageStart : AnthropicStreamEvent → Bool
  | .messageStart _ => true
  | _ => false

/-- Is this client event a `message_stop`? -/
def isMessageStop : AnthropicStreamEvent → Bool
  | .messageStop => true
  | _ => false

def cbStartCount (evs : List AnthropicStreamEvent) : Nat :=
  evs.countP isContentBlockStart

def cbStopCount (evs : List AnthropicStreamEvent) : Nat :=
  evs.countP isContentBlockStop

def msgStartCount (evs : List AnthropicStreamEvent) : Nat :=
  evs.countP isMessageStart

def msgStopCount (evs : List AnthropicStreamEvent) : Nat :=
  evs.countP isMessageStop

/-- The per-event invariants of `translateResponsesStreamEvent`:
block-start/stop counts balance against the open-block set,
`message_start` is emitted only by `ensureMessageStart` (once, first,
never after it was sent), and `message_stop` only as the final event of a
step that also sets `messageCompleted`. -/
def StepInvariant (s s' : ResponsesStreamState)
    (out : List AnthropicStreamEvent) : Prop :=
  (cbStartCount out + s.openBlocks.length
      = cbStopCount out + s'.openBlocks.length)
  ∧ (s.messageStartSent = true →
      msgStartCount out = 0 ∧ s'.messageStartSent = true)
  ∧ (s.messageStartSent = false →
      (out = [] ∧ s' = s)
      ∨ (∃ i rest, out = .messageStart i :: rest ∧ msgStartCount rest = 0
          ∧ s'.messageStartSent = true)
      ∨ (msgStartCount out = 0 ∧ s'.messageCompleted = true))
  ∧ msgStopCount out.dropLast = 0
  ∧ (msgStopCount out ≠ 0 → s'.messageCompleted = true)

/-! ## Printer/parser roundtrip: auxiliary lemmas -/

/-- The head of the list (if any) is not a decimal digit. -/
def HeadNotDigit (l : List Char) : Prop :=
  ∀ d, l.head? = some d → d.isDigit = false

lemma headNotDigit_nil : HeadNotDigit [] := by
  intro d h
  cases h

lemma headNotDigit_cons {c : Char} (h : c.isDigit = false) (l : List Char) :
    HeadNotDigit (c :: l) := by
  intro d hd
  cases hd
  exact h

lemma digitChar_toNat {d : Nat} (h : d < 10) : (digitChar d).toNat = 48 + d := by
  interval_cases d <;> decide

lemma digitChar_isDigit {d : Nat} (h : d < 10) : (digitChar d).isDigit = true := by
  interval_cases d <;> decide

lemma natToChars_digits (n : Nat) : ∀ c ∈ natToChars n, c.isDigit = true := by
  induction n using Nat.strong_induction_on with
  | _ n ih =>
    rw [natToChars]
    by_cases h : n < 10
    · simp only [if_pos h, List.mem_singleton]
      intro c hc
      subst hc
      exact digitChar_isDigit h
    · simp only [if_neg h, List.mem_append, List.mem_singleton]
      intro c hc
      rcases hc with hc | hc
      · exact ih (n / 10) (Nat.div_lt_self (by omega) (by omega)) c hc
      · subst hc
        exact digitChar_isDigit (Nat.mod_lt _ (by omega))

lemma natToChars_ne_nil (n : Nat) : natToChars n ≠ [] := by
  rw [natToChars]
  by_cases h : n < 10 <;> simp [h]

lemma parseDigits_digits (ds : List Char) (hds : ∀ c ∈ ds, c.isDigit = true) :
    ∀ (rest : List Char) (acc : Nat),
      parseDigits (ds ++ rest) acc
        = parseDigits rest (ds.foldl (fun a c => a * 10 + (c.toNat - 48)) acc) := by
  induction ds with
  | nil => intro rest acc; rfl
  | cons c ds ih =>
    intro rest acc
    have hc : c.isDigit = true := hds c (by simp)
    simp only [List.cons_append, parseDigits, hc, if_pos, List.foldl_cons]
    exact ih (fun d hd => hds d (by simp [hd])) rest _

lemma parseDigits_stop (rest : List Char) (h : HeadNotDigit rest) (acc : Nat) :
    parseDigits rest acc = (acc, rest) := by
  cases rest with
  | nil => rfl
  | cons c l =>
    have hc : c.isDigit = false := h c rfl
    simp [parseDigits, hc]

lemma natToChars_foldl (n : Nat) :
    ∀ acc, (natToChars n).foldl (fun a c => a * 10 + (c.toNat - 48)) acc
      = acc * 10 ^ (natToChars n).length + n := by
  induction n using Nat.strong_induction_on with
  | _ n ih =>
    intro acc
    rw [natToChars]
    by_cases h : n < 10
    · simp only [if_pos h, List.foldl_cons, List.foldl_nil, List.length_singleton,
        pow_one]
      rw [digitChar_toNat h]
      omega
    · simp only [if_neg h, List.foldl_append, List.foldl_cons, List.foldl_nil,
        List.length_append, List.length_singleton]
      rw [ih (n / 10) (Nat.div_lt_self (by omega) (by omega)) acc,
        digitChar_toNat (Nat.mod_lt _ (by omega))]
      rw [pow_succ]
      have h10 : n / 10 * 10 + n % 10 = n := by omega
      ring_nf
      omega

lemma natToChars_value (n : Nat) :
    (natToChars n).foldl (fun a c => a * 10 + (c.toNat - 48)) 0 = n := by
  rw [natToChars_foldl]
  simp

lemma parseNumber_natToChars (n : Nat) (rest : List Char)
    (hrest : HeadNotDigit rest) :
    parseNumber (natToChars n ++ rest) = some ((n : Int), rest) := by
  obtain ⟨c, t, hct⟩ : ∃ c t, natToChars n = c :: t := by
    cases h : natToChars n with
    | nil => exact absurd h (natToChars_ne_nil n)
    | cons c t => exact ⟨c, t, rfl⟩
  have hc : c.isDigit = true := natToChars_digits n c (by rw [hct]; simp)
  have hcm : c ≠ '-' := by
    intro h
    subst h
    exact absurd hc (by decide)
  rw [hct]
  simp only [List.cons_append, parseNumber, if_neg hcm, hc, if_pos]
  have : parseDigits (c :: (t ++ rest)) 0 = (n, rest) := by
    have h1 : c :: (t ++ rest) = (c :: t) ++ rest := by simp
    rw [h1, ← hct, parseDigits_digits _ (natToChars_digits n),
      parseDigits_stop _ hrest, natToChars_value]
  simp [this]

lemma parseNumber_intToChars (n : Int) (rest : List Char)
    (hrest : HeadNotDigit rest) :
    parseNumber (intToChars n ++ rest) = some (n, rest) := by
  unfold intToChars
  by_cases h : n < 0
  · simp only [if_pos h, List.cons_append]
    obtain ⟨c, t, hct⟩ : ∃ c t, natToChars n.natAbs = c :: t := by
      cases hx : natToChars n.natAbs with
      | nil => exact absurd hx (natToChars_ne_nil _)
      | cons c t => exact ⟨c, t, rfl⟩
    have hc : c.isDigit = true := natToChars_digits _ c (by rw [hct]; simp)
    have key : parseDigits (c :: (t ++ rest)) 0 = (n.natAbs, rest) := by
      have h1 : c :: (t ++ rest) = (c :: t) ++ rest := by simp
      rw [h1, ← hct, parseDigits_digits _ (natToChars_digits _),
        parseDigits_stop _ hrest, natToChars_value]
    rw [hct]
    simp +decide only [parseNumber, List.cons_append, hc, if_pos, if_true, key]
    simp only [Option.some.injEq, Prod.mk.injEq]
    exact ⟨by omega, trivial⟩
  · simp only [if_neg h]
    rw [parseNumber_natToChars _ _ hrest]
    simp only [Option.some.injEq, Prod.mk.injEq]
    exact ⟨by omega, trivial⟩

lemma parseStringBody_escape (s : List Char) (rest : List Char) :
    parseStringBody (escapeChars s ++ ('"' :: rest)) = some (s, rest) := by
  induction s with
  | nil =>
    simp only [escapeChars, List.nil_append]
    rw [parseStringBody.eq_def]
    simp
  | cons c cs ih =>
    simp only [escapeChars, List.append_assoc]
    by_cases h1 : c = '"'
    · subst h1
      simp +decide only [escapeChar, List.cons_append, List.nil_append,
        if_pos, if_true]
      rw [parseStringBody.eq_def]
      simp +decide [unescapeChar, ih]
    · by_cases h2 : c = '\\'
      · subst h2
        simp +decide only [escapeChar, List.cons_append, List.nil_append]
        rw [parseStringBody.eq_def]
        simp +decide [unescapeChar, ih]
      · by_cases h3 : c = '\n'
        · subst h3
          simp +decide only [escapeChar, List.cons_append, List.nil_append]
          rw [parseStringBody.eq_def]
          simp +decide [unescapeChar, ih]
        · by_cases h4 : c = '\t'
          · subst h4
            simp +decide only [escapeChar, List.cons_append, List.nil_append]
            rw [parseStringBody.eq_def]
            simp +decide [unescapeChar, ih]
          · by_cases h5 : c = '\r'
            · subst h5
              simp +decide only [escapeChar, List.cons_append, List.nil_append]
              rw [parseStringBody.eq_def]
              simp +decide [unescapeChar, ih]
            · simp only [escapeChar, h1, h2, h3, h4, h5, ite_false,
                List.cons_append, List.nil_append]
              rw [parseStringBody.eq_def]
              simp [h1, h2, ih]

lemma skipWs_cons {c : Char} (h : isJsonWs c = false) (l : List Char) :
    skipWs (c :: l) = c :: l := by
  simp [skipWs, h]

lemma digit_char_props (c : Char) (h : c.isDigit = true) :
    isJsonWs c = false ∧ c ≠ '"' ∧ c ≠ '[' ∧ c ≠ '{' ∧ c ≠ 'n' ∧ c ≠ 't'
      ∧ c ≠ 'f' ∧ c ≠ ']' ∧ c ≠ '}' ∧ c ≠ ',' ∧ c ≠ '-' ∧ c ≠ ':' := by
  refine ⟨?_, ?_, ?_, ?_, ?_, ?_, ?_, ?_, ?_, ?_, ?_, ?_⟩
  · cases hw : isJsonWs c
    · rfl
    · exfalso
      simp only [isJsonWs, Bool.or_eq_true, decide_eq_true_eq] at hw
      rcases hw with ((h1 | h1) | h1) | h1 <;> subst h1
        <;> exact absurd h (by decide)
  all_goals (rintro rfl; exact absurd h (by decide))

/-- The serialized form of a JSON value starts with a significant character
that is not a closing bracket. -/
lemma stringify_head (x : JSON) :
    ∃ c t, stringifyChars x = c :: t ∧ isJsonWs c = false ∧ c ≠ ']' := by
  cases x with
  | null => exact ⟨'n', _, by rw [stringifyChars], by decide, by decide⟩
  | bool b =>
    cases b with
    | true => exact ⟨'t', _, by rw [stringifyChars], by decide, by decide⟩
    | false => exact ⟨'f', _, by rw [stringifyChars], by decide, by decide⟩
  | num n =>
    by_cases hn : n < 0
    · refine ⟨'-', natToChars n.natAbs, ?_, by decide, by decide⟩
      rw [stringifyChars]
      simp [intToChars, hn]
    · obtain ⟨c, t, hct⟩ : ∃ c t, natToChars n.toNat = c :: t := by
        cases hx : natToChars n.toNat with
        | nil => exact absurd hx (natToChars_ne_nil _)
        | cons c t => exact ⟨c, t, rfl⟩
      have hcd : c.isDigit = true := natToChars_digits _ c (by rw [hct]; simp)
      obtain ⟨hw, _, _, _, _, _, _, hbr, _, _, _, _⟩ := digit_char_props c hcd
      exact ⟨c, t, by rw [stringifyChars]; simp [intToChars, hn, hct], hw, hbr⟩
  | str s => exact ⟨'"', _, by rw [stringifyChars], by decide, by decide⟩
  | arr l =>
    cases l with
    | nil => exact ⟨'[', _, by rw [stringifyChars], by decide, by decide⟩
    | cons y ys => exact ⟨'[', _, by rw [stringifyChars], by decide, by decide⟩
  | obj l =>
    cases l with
    | nil => exact ⟨'{', _, by rw [stringifyChars], by decide, by decide⟩
    | cons m ms => exact ⟨'{', _, by rw [stringifyChars], by decide, by decide⟩

mutual

/-- The parser inverts the printer: parsing a serialized JSON value (with
enough fuel) consumes exactly the serialized characters. -/
theorem parseValue_stringify : ∀ (x : JSON) (fuel : Nat) (rest : List Char),
    (stringifyChars x).length < fuel → HeadNotDigit rest →
    parseValue fuel (stringifyChars x ++ rest) = some (x, rest)
  | .null, fuel, rest, hfuel, _ => by
    obtain ⟨f, rfl⟩ : ∃ f, fuel = f + 1 := ⟨fuel - 1, by omega⟩
    rw [stringifyChars]
    simp +decide [parseValue, skipWs, isJsonWs]
  | .bool true, fuel, rest, hfuel, _ => by
    obtain ⟨f, rfl⟩ : ∃ f, fuel = f + 1 := ⟨fuel - 1, by omega⟩
    rw [stringifyChars]
    simp +decide [parseValue, skipWs, isJsonWs]
  | .bool false, fuel, rest, hfuel, _ => by
    obtain ⟨f, rfl⟩ : ∃ f, fuel = f + 1 := ⟨fuel - 1, by omega⟩
    rw [stringifyChars]
    simp +decide [parseValue, skipWs, isJsonWs]
  | .num n, fuel, rest, hfuel, hrest => by
    obtain ⟨f, rfl⟩ : ∃ f, fuel = f + 1 := ⟨fuel - 1, by omega⟩
    rw [stringifyChars]
    by_cases hn : n < 0
    · have hd : intToChars n = '-' :: natToChars n.natAbs := by
        simp [intToChars, hn]
      rw [hd]
      simp only [List.cons_append]
      rw [parseValue]
      rw [skipWs_cons (by decide)]
      simp +decide only [if_true, if_false]
      have := parseNumber_intToChars n rest hrest
      rw [hd] at this
      simp only [List.cons_append] at this
      rw [this]
    · have hd : intToChars n = natToChars n.toNat := by simp [intToChars, hn]
      obtain ⟨c, t, hct⟩ : ∃ c t, natToChars n.toNat = c :: t := by
        cases hx : natToChars n.toNat with
        | nil => exact absurd hx (natToChars_ne_nil _)
        | cons c t => exact ⟨c, t, rfl⟩
      have hcd : c.isDigit = true := natToChars_digits _ c (by rw [hct]; simp)
      obtain ⟨hw, hq, hlb, hlc, hn', ht', hf', _, _, _, hm, _⟩ :=
        digit_char_props c hcd
      rw [hd, hct]
      simp only [List.cons_append]
      rw [parseValue]
      rw [skipWs_cons hw]
      simp only [if_neg hq, if_neg hlb, if_neg hlc, if_neg hn', if_neg ht',
        if_neg hf']
      have := parseNumber_intToChars n rest hrest
      rw [hd, hct] at this
      simp only [List.cons_append] at this
      rw [this]
  | .str s, fuel, rest, hfuel, _ => by
    obtain ⟨f, rfl⟩ : ∃ f, fuel = f + 1 := ⟨fuel - 1, by omega⟩
    rw [stringifyChars]
    simp only [List.cons_append, List.append_assoc, List.singleton_append]
    rw [parseValue]
    rw [skipWs_cons (by decide)]
    simp +decide only [if_true, if_false]
    rw [parseStringBody_escape]
    rfl
  | .arr [], fuel, rest, hfuel, _ => by
    obtain ⟨f, rfl⟩ : ∃ f, fuel = f + 1 := ⟨fuel - 1, by omega⟩
    rw [stringifyChars]
    simp +decide [parseValue, skipWs, isJsonWs]
  | .arr (x :: xs), fuel, rest, hfuel, _ => by
    obtain ⟨f, rfl⟩ : ∃ f, fuel = f + 1 := ⟨fuel - 1, by omega⟩
    obtain ⟨c, t, hE, hws, hbr⟩ : ∃ c t, stringifyElems x xs = c :: t
        ∧ isJsonWs c = false ∧ c ≠ ']' := by
      obtain ⟨c, t, h1, h2, h3⟩ := stringify_head x
      cases xs with
      | nil => exact ⟨c, t, by rw [stringifyElems, h1], h2, h3⟩
      | cons y ys =>
        refine ⟨c, t ++ (',' :: stringifyElems y ys), ?_, h2, h3⟩
        rw [stringifyElems, h1]
        simp
    rw [stringifyChars] at hfuel ⊢
    simp only [List.cons_append, List.append_assoc, List.singleton_append]
    rw [parseValue]
    rw [skipWs_cons (by decide)]
    simp +decide only [if_true, if_false]
    rw [hE]
    simp only [List.cons_append]
    rw [skipWs_cons hws]
    simp only [if_neg hbr]
    have harith : (stringifyElems x xs).length + 1 < f := by
      simp only [List.length_cons, List.length_append,
        List.length_singleton] at hfuel
      omega
    have := parseElems_stringify x xs f rest harith
    rw [hE] at this
    simp only [List.cons_append] at this
    simp only [List.nil_append]
    rw [this]
  | .obj [], fuel, rest, hfuel, _ => by
    obtain ⟨f, rfl⟩ : ∃ f, fuel = f + 1 := ⟨fuel - 1, by omega⟩
    rw [stringifyChars]
    simp +decide [parseValue, skipWs, isJsonWs]
  | .obj (m :: ms), fuel, rest, hfuel, _ => by
    obtain ⟨f, rfl⟩ : ∃ f, fuel = f + 1 := ⟨fuel - 1, by omega⟩
    have hMq : ∃ t, stringifyMembers m ms = '"' :: t := by
      obtain ⟨k, v⟩ := m
      cases ms with
      | nil => exact ⟨_, by rw [stringifyMembers]⟩
      | cons m' ms' =>
        refine ⟨escapeChars k.data ++ ('"' :: ':' :: stringifyChars v)
          ++ (',' :: stringifyMembers m' ms'), ?_⟩
        rw [stringifyMembers]
        simp
    obtain ⟨t, hM⟩ := hMq
    rw [stringifyChars] at hfuel ⊢
    simp only [List.cons_append, List.append_assoc, List.singleton_append]
    rw [parseValue]
    rw [skipWs_cons (by decide)]
    simp +decide only [if_true, if_false]
    rw [hM]
    simp only [List.cons_append]
    rw [skipWs_cons (by decide)]
    simp +decide only [if_true, if_false]
    have harith : (stringifyMembers m ms).length + 1 < f := by
      simp only [List.length_cons, List.length_append,
        List.length_singleton] at hfuel
      omega
    have := parseMembers_stringify m ms f rest harith
    rw [hM] at this
    simp only [List.cons_append] at this
    simp only [List.nil_append]
    rw [this]
termination_by x => sizeOf x
decreasing_by all_goals (simp_wf <;> omega)

theorem parseElems_stringify : ∀ (x : JSON) (xs : List JSON) (fuel : Nat)
    (rest : List Char), (stringifyElems x xs).length + 1 < fuel →
    parseElems fuel (stringifyElems x xs ++ (']' :: rest)) = some (x :: xs, rest)
  | x, [], fuel, rest, hfuel => by
    obtain ⟨f, rfl⟩ : ∃ f, fuel = f + 1 := ⟨fuel - 1, by omega⟩
    rw [stringifyElems] at hfuel ⊢
    rw [parseElems]
    have hv := parseValue_stringify x f (']' :: rest) (by omega)
      (headNotDigit_cons (by decide) _)
    simp only [hv]
    rw [skipWs_cons (by decide)]
    simp +decide only [if_true, if_false]
  | x, y :: ys, fuel, rest, hfuel => by
    obtain ⟨f, rfl⟩ : ∃ f, fuel = f + 1 := ⟨fuel - 1, by omega⟩
    rw [stringifyElems] at hfuel ⊢
    simp only [List.length_append, List.length_cons] at hfuel
    simp only [List.append_assoc, List.cons_append]
    rw [parseElems]
    have hv := parseValue_stringify x f
      (',' :: (stringifyElems y ys ++ (']' :: rest)))
      (by omega) (headNotDigit_cons (by decide) _)
    simp only [List.cons_append] at hv
    simp only [hv]
    rw [skipWs_cons (by decide)]
    simp +decide only [if_true, if_false]
    have := parseElems_stringify y ys f rest (by omega)
    rw [this]
termination_by x xs => 1 + sizeOf x + sizeOf xs
decreasing_by all_goals (simp_wf <;> omega)

theorem parseMembers_stringify : ∀ (m : String × JSON)
    (ms : List (String × JSON)) (fuel : Nat) (rest : List Char),
    (stringifyMembers m ms).length + 1 < fuel →
    parseMembers fuel (stringifyMembers m ms ++ ('}' :: rest))
      = some (m :: ms, rest)
  | (k, v), [], fuel, rest, hfuel => by
    obtain ⟨f, rfl⟩ : ∃ f, fuel = f + 1 := ⟨fuel - 1, by omega⟩
    rw [stringifyMembers] at hfuel ⊢
    simp only [List.length_cons, List.length_append] at hfuel
    simp only [List.cons_append, List.append_assoc]
    rw [parseMembers]
    rw [skipWs_cons (by decide)]
    simp +decide only [if_true, if_false]
    rw [parseStringBody_escape]
    simp only
    rw [skipWs_cons (by decide)]
    simp +decide only [if_true, if_false]
    have hv := parseValue_stringify v f ('}' :: rest) (by omega)
      (headNotDigit_cons (by decide) _)
    simp only [hv]
    rw [skipWs_cons (by decide)]
    simp +decide only [if_true, if_false]
  | (k, v), m :: ms, fuel, rest, hfuel => by
    obtain ⟨f, rfl⟩ : ∃ f, fuel = f + 1 := ⟨fuel - 1, by omega⟩
    rw [stringifyMembers] at hfuel ⊢
    simp only [List.length_cons, List.length_append] at hfuel
    simp only [List.cons_append, List.append_assoc]
    rw [parseMembers]
    rw [skipWs_cons (by decide)]
    simp +decide only [if_true, if_false]
    rw [parseStringBody_escape]
    simp only
    rw [skipWs_cons (by decide)]
    simp +decide only [if_true, if_false]
    have hv := parseValue_stringify v f
      (',' :: (stringifyMembers m ms ++ ('}' :: rest)))
      (by omega) (headNotDigit_cons (by decide) _)
    simp only [List.cons_append] at hv
    simp only [hv]
    rw [skipWs_cons (by decide)]
    simp +decide only [if_true, if_false]
    have := parseMembers_stringify m ms f rest (by omega)
    rw [this]
termination_by m ms => 1 + sizeOf m + sizeOf ms
decreasing_by all_goals (simp_wf <;> omega)

end

/-- Roundtrip at the `JSON.parse` level. -/
theorem jsonParse_stringify (x : JSON) : jsonParse (stringifyChars x) = some x := by
  unfold jsonParse
  have := parseValue_stringify x ((stringifyChars x).length + 1) []
    (by omega) headNotDigit_nil
  simp only [List.append_nil] at this
  rw [this]
  simp [skipWs]

/-! ## Supporting lemmas: parseFunctionCallArguments (C3) -/

lemma jsTrimEmpty_stringify_obj (kvs : List (String × JSON)) :
    jsTrimEmpty (jsonStringify (.obj kvs)) = false := by
  obtain ⟨t, ht⟩ : ∃ t, stringifyChars (.obj kvs) = '{' :: t := by
    cases kvs with
    | nil => exact ⟨_, by rw [stringifyChars]⟩
    | cons m ms => exact ⟨_, by rw [stringifyChars]⟩
  simp only [jsTrimEmpty, jsonStringify, ht, List.all_cons]
  simp +decide [isJsTrimWs]

lemma jsonParseStr_stringify (x : JSON) :
    jsonParseStr (jsonStringify x) = some x := jsonParse_stringify x

lemma parseFunctionCallArguments_obj (kvs : List (String × JSON)) :
    parseFunctionCallArguments (jsonStringify (.obj kvs)) = kvs := by
  rw [parseFunctionCallArguments, jsTrimEmpty_stringify_obj,
    jsonParseStr_stringify]
  rfl

/-! ## Supporting lemmas: translateToAnthropic (C2, C5) -/

lemma getAnthropicToolUseBlocks_ok_of_parsable (l : List ToolCall)
    (h : ∀ tc ∈ l, (jsonParseStr tc.function_arguments).isSome = true) :
    ∃ bs, getAnthropicToolUseBlocks (some l) = .ok bs := by
  induction l with
  | nil => exact ⟨[], rfl⟩
  | cons tc t ih =>
    have hp : (jsonParseStr tc.function_arguments).isSome = true :=
      h tc (by simp)
    obtain ⟨v, hv⟩ := Option.isSome_iff_exists.mp hp
    obtain ⟨bs, hbs⟩ := ih (fun tc' htc' => h tc' (by simp [htc']))
    refine ⟨.toolUse tc.id tc.function_name v :: bs, ?_⟩
    have h1 : getAnthropicToolUseBlocks (some (tc :: t))
        = (tc :: t).mapM (fun tc =>
            match jsonParseStr tc.function_arguments with
            | some v =>
              Except.ok (AnthropicAssistantContentBlock.toolUse tc.id
                tc.function_name v)
            | none =>
              Except.error ("SyntaxError: Unexpected token in JSON: "
                ++ tc.function_arguments)) := rfl
    have h2 : getAnthropicToolUseBlocks (some t)
        = t.mapM (fun tc =>
            match jsonParseStr tc.function_arguments with
            | some v =>
              Except.ok (AnthropicAssistantContentBlock.toolUse tc.id
                tc.function_name v)
            | none =>
              Except.error ("SyntaxError: Unexpected token in JSON: "
                ++ tc.function_arguments)) := rfl
    rw [h1, List.mapM_cons, hv]
    rw [h2] at hbs
    simp only [hbs]
    rfl

lemma translateChoiceStep_ok (acc : List AnthropicAssistantContentBlock × Option String)
    (choice : ChatChoice)
    (h : ∀ l, choice.message.tool_calls = some l →
      ∀ tc ∈ l, (jsonParseStr tc.function_arguments).isSome = true) :
    ∃ out, translateChoiceStep acc choice = .ok out := by
  cases hres : translateChoiceStep acc choice with
  | ok out => exact ⟨out, rfl⟩
  | error e =>
    exfalso
    cases htc : choice.message.tool_calls with
    | none =>
      rw [translateChoiceStep, htc] at hres
      cases hres
    | some l =>
      obtain ⟨bs, hbs⟩ := getAnthropicToolUseBlocks_ok_of_parsable l (h l htc)
      rw [translateChoiceStep, htc, hbs] at hres
      cases hres

lemma foldlM_choices_ok (choices : List ChatChoice)
    (h : ∀ c ∈ choices, ∀ l, c.message.tool_calls = some l →
      ∀ tc ∈ l, (jsonParseStr tc.function_arguments).isSome = true) :
    ∀ acc, ∃ out, choices.foldlM translateChoiceStep acc = .ok out := by
  induction choices with
  | nil => exact fun acc => ⟨acc, rfl⟩
  | cons c t ih =>
    intro acc
    obtain ⟨next, hnext⟩ := translateChoiceStep_ok acc c (h c (by simp))
    obtain ⟨out, hout⟩ := ih (fun c' hc' => h c' (by simp [hc'])) next
    refine ⟨out, ?_⟩
    rw [List.foldlM_cons, hnext]
    exact hout

/-! ## Claims -/

/-- C3: `parseFunctionCallArguments` satisfies, for every input string:
(1) for any JSON object `x`, parsing `JSON.stringify(x)` returns `x`
    (the record with the same members, in order);
(2) an empty or whitespace-only string yields `{}`;
(3) a string that fails to parse as JSON, or parses to a non-object,
    non-array value (scalar or null), yields
    `{raw_arguments: <original string>}`;
(4) a parse yielding an array yields `{arguments: <the array>}`.
The function is total (never throws) by construction.  The JSON model
covers integer numerals and the common string escapes. -/
theorem c3_parseFunctionCallArguments_spec :
    (∀ kvs : List (String × JSON),
      parseFunctionCallArguments (jsonStringify (.obj kvs)) = kvs)
    ∧ (∀ s : String, jsTrimEmpty s = true → parseFunctionCallArguments s = [])
    ∧ (∀ s : String, jsTrimEmpty s = false →
        (∀ kvs, jsonParseStr s ≠ some (.obj kvs)) →
        (∀ xs, jsonParseStr s ≠ some (.arr xs)) →
        parseFunctionCallArguments s = [("raw_arguments", JSON.str s)])
    ∧ (∀ (s : String) (xs : List JSON), jsTrimEmpty s = false →
        jsonParseStr s = some (.arr xs) →
        parseFunctionCallArguments s = [("arguments", JSON.arr xs)]) := by
  refine ⟨parseFunctionCallArguments_obj, ?_, ?_, ?_⟩
  · intro s h
    rw [parseFunctionCallArguments, h]
    rfl
  · intro s h hobj harr
    rw [parseFunctionCallArguments, h]
    cases hp : jsonParseStr s with
    | none => rfl
    | some v =>
      cases v with
      | null => rfl
      | bool b => rfl
      | num n => rfl
      | str t => rfl
      | arr xs => exact absurd hp (harr xs)
      | obj kvs => exact absurd hp (hobj kvs)
  · intro s xs h hp
    rw [parseFunctionCallArguments, h, hp]
    rfl

/-- Witness for C3 at concrete inputs: the empty string, the string
`"not json"`, and the round trip of the object `{x: 1}`. -/
theorem c3_witness :
    (jsTrimEmpty "" = true ∧ parseFunctionCallArguments "" = [])
    ∧ (jsTrimEmpty "not json" = false
        ∧ parseFunctionCallArguments "not json"
            = [("raw_arguments", JSON.str "not json")])
    ∧ parseFunctionCallArguments (jsonStringify (.obj [("x", .num 1)]))
        = [("x", JSON.num 1)] := by
  refine ⟨⟨by decide, ?_⟩, ⟨by decide, ?_⟩, ?_⟩
  · exact c3_parseFunctionCallArguments_spec.2.1 "" (by decide)
  · exact c3_parseFunctionCallArguments_spec.2.2.1 "not json" (by decide)
      (fun kvs h => by rw [show jsonParseStr "not json" = none from rfl] at h; cases h)
      (fun xs h => by rw [show jsonParseStr "not json" = none from rfl] at h; cases h)
  · exact c3_parseFunctionCallArguments_spec.1 [("x", .num 1)]

/-- C2 (amended): `translateToAnthropic` returns an `AnthropicResponse`
without throwing provided every tool call's `function.arguments` string is
valid JSON; when some arguments string is malformed the bare
`JSON.parse` call in `getAnthropicToolUseBlocks` throws and the exception
propagates (see the counterexample). -/
theorem c2_translateToAnthropic_total_of_parsable
    (response : ChatCompletionResponse)
    (h : ∀ c ∈ response.choices, ∀ l, c.message.tool_calls = some l →
      ∀ tc ∈ l, (jsonParseStr tc.function_arguments).isSome = true) :
    ∃ r, translateToAnthropic response = .ok r := by
  obtain ⟨out, hout⟩ := foldlM_choices_ok response.choices h
    ([], response.choices.head?.bind (·.finish_reason))
  cases hres : translateToAnthropic response with
  | ok r => exact ⟨r, rfl⟩
  | error e =>
    exfalso
    rw [translateToAnthropic, hout] at hres
    cases hres

/-- Counterexample to C2 as stated: on a response whose single tool call
carries `arguments = "not json"`, `translateToAnthropic` does not return a
response — the `JSON.parse` exception escapes (modelled `.error`). -/
theorem c2_counterexample :
    translateToAnthropic badArgumentsResponse
      = .error "SyntaxError: Unexpected token in JSON: not json" := by
  rfl

/-- Witness for C2 (amended) at spec scenario 5's response, whose tool
call arguments parse. -/
theorem c2_witness :
    (∀ c ∈ scenario5Response.choices, ∀ l, c.message.tool_calls = some l →
      ∀ tc ∈ l, (jsonParseStr tc.function_arguments).isSome = true)
    ∧ ∃ r, translateToAnthropic scenario5Response = .ok r := by
  have h : ∀ c ∈ scenario5Response.choices, ∀ l,
      c.message.tool_calls = some l →
      ∀ tc ∈ l, (jsonParseStr tc.function_arguments).isSome = true := by
    decide
  exact ⟨h, c2_translateToAnthropic_total_of_parsable scenario5Response h⟩

/-- C5: for every ChatCompletions response successfully translated by
`translateToAnthropic`, `usage.input_tokens` is `prompt_tokens` minus
`prompt_tokens_details.cached_tokens` (each defaulting to 0 when absent),
`usage.output_tokens` is `completion_tokens` (defaulting to 0), and
`cache_read_input_tokens` is present and equal to `cached_tokens` exactly
when `prompt_tokens_details.cached_tokens` is present. -/
theorem c5_translateToAnthropic_usage (response : ChatCompletionResponse)
    (r : AnthropicResponse) (h : translateToAnthropic response = .ok r) :
    r.usage.input_tokens
        = ((response.usage.bind (·.prompt_tokens)).getD 0)
          - (((response.usage.bind (·.prompt_tokens_details)).bind
              (·.cached_tokens)).getD 0)
    ∧ r.usage.output_tokens = (response.usage.bind (·.completion_tokens)).getD 0
    ∧ r.usage.cache_read_input_tokens
        = (response.usage.bind (·.prompt_tokens_details)).bind
            (·.cached_tokens) := by
  rw [translateToAnthropic] at h
  cases hf : response.choices.foldlM translateChoiceStep
      ([], response.choices.head?.bind (·.finish_reason)) with
  | error e =>
    rw [hf] at h
    cases h
  | ok acc =>
    rw [hf] at h
    cases h
    exact ⟨rfl, rfl, rfl⟩

/-- Witness for C5 at spec scenario 5: usage `{prompt 5, completion 2,
cached 1}` yields `{input_tokens 4, output_tokens 2,
cache_read_input_tokens 1}`. -/
theorem c5_witness :
    translateToAnthropic scenario5Response = .ok scenario5Anthropic
    ∧ (scenario5Anthropic.usage.input_tokens
          = ((scenario5Response.usage.bind (·.prompt_tokens)).getD 0)
            - (((scenario5Response.usage.bind (·.prompt_tokens_details)).bind
                (·.cached_tokens)).getD 0)
        ∧ scenario5Anthropic.usage.output_tokens
            = (scenario5Response.usage.bind (·.completion_tokens)).getD 0
        ∧ scenario5Anthropic.usage.cache_read_input_tokens
            = (scenario5Response.usage.bind (·.prompt_tokens_details)).bind
                (·.cached_tokens)) :=
  ⟨rfl, c5_translateToAnthropic_usage scenario5Response scenario5Anthropic rfl⟩

/-! ## Supporting lemmas: handleUserMessage (C6) -/

lemma filterMap_toolResultMessage_ids (bs : List AnthropicUserContentBlock) :
    (bs.filterMap toolResultMessage).map (·.tool_call_id)
      = (bs.filter isToolResultBlock).map toolResultId := by
  induction bs with
  | nil => rfl
  | cons b t ih =>
    cases b with
    | text s => simpa [toolResultMessage, isToolResultBlock] using ih
    | image m d => simpa [toolResultMessage, isToolResultBlock] using ih
    | toolResult id c e =>
      simpa [toolResultMessage, isToolResultBlock, toolResultId] using ih

/-! ## Supporting lemmas: count-tokens (C7) -/

lemma not_claude_of_grok (model : String)
    (h : jsStartsWith model "grok" = true) :
    jsStartsWith model "claude" = false := by
  unfold jsStartsWith at h ⊢
  cases hd : model.data with
  | nil =>
    rw [hd] at h
    exact absurd h (by decide)
  | cons c t =>
    rw [hd] at h
    have hg : "grok".data = ['g', 'r', 'o', 'k'] := rfl
    rw [hg] at h
    have hc : "claude".data = ['c', 'l', 'a', 'u', 'd', 'e'] := rfl
    rw [hc]
    simp only [List.isPrefixOf, Bool.and_eq_true, beq_iff_eq] at h
    obtain ⟨hcg, _⟩ := h
    subst hcg
    simp [List.isPrefixOf]

/-- C6: a user message whose content array holds both tool_result blocks
and other blocks produces one `role=tool` message per tool_result block —
`tool_call_id` equal to the block's `tool_use_id`, in the original order
of the tool_result blocks — strictly before the single `role=user` message
built from the remaining blocks. -/
theorem c6_handleUserMessage_order (bs : List AnthropicUserContentBlock)
    (htr : bs.filter isToolResultBlock ≠ [])
    (hot : bs.filter (fun b => !(isToolResultBlock b)) ≠ []) :
    ∃ toolMsgs : List ChatMessage,
      handleUserMessage (.blocks bs)
        = toolMsgs
          ++ [{ role := "user"
                content := mapContent
                  (.blocks (bs.filter (fun b => !(isToolResultBlock b)))) }]
      ∧ toolMsgs ≠ []
      ∧ (∀ m ∈ toolMsgs, m.role = "tool")
      ∧ toolMsgs.map (·.tool_call_id)
          = (bs.filter isToolResultBlock).map toolResultId := by
  refine ⟨bs.filterMap toolResultMessage, ?_, ?_, ?_,
    filterMap_toolResultMessage_ids bs⟩
  · rw [handleUserMessage]
    have hlen : (bs.filter (fun b => !(isToolResultBlock b))).length > 0 :=
      List.length_pos.mpr hot
    simp [hlen]
  · obtain ⟨b, hb⟩ := List.exists_mem_of_ne_nil _ htr
    have hbtr : isToolResultBlock b = true := List.of_mem_filter hb
    have hbbs : b ∈ bs := List.mem_of_mem_filter hb
    cases b with
    | text s => exact absurd hbtr (by simp [isToolResultBlock])
    | image m d => exact absurd hbtr (by simp [isToolResultBlock])
    | toolResult id c e =>
      intro hnil
      have : (toolResultMessage (.toolResult id c e)).isSome = true := rfl
      have hmem : ∀ x, x ∈ bs.filterMap toolResultMessage →
          x ∈ ([] : List ChatMessage) := by rw [hnil]; intro x hx; exact hx
      exact absurd (hmem _ (List.mem_filterMap.mpr
        ⟨.toolResult id c e, hbbs, rfl⟩)) (by simp)
  · intro m hm
    obtain ⟨b, _, hb⟩ := List.mem_filterMap.mp hm
    cases b with
    | text s => cases hb
    | image m2 d => cases hb
    | toolResult id c e =>
      rw [toolResultMessage] at hb
      cases hb
      rfl

/-- Witness for C6: a content array with one tool_result block and one
text block yields the tool message first, then the user message. -/
theorem c6_witness :
    ([AnthropicUserContentBlock.toolResult "tu1" (.str "out") false,
        .text "hello"].filter isToolResultBlock ≠ [])
    ∧ ([AnthropicUserContentBlock.toolResult "tu1" (.str "out") false,
        .text "hello"].filter (fun b => !(isToolResultBlock b)) ≠ [])
    ∧ ∃ toolMsgs : List ChatMessage,
        handleUserMessage (.blocks
          [.toolResult "tu1" (.str "out") false, .text "hello"])
          = toolMsgs
            ++ [{ role := "user"
                  content := mapContent (.blocks
                    ([AnthropicUserContentBlock.toolResult "tu1" (.str "out")
                        false, .text "hello"].filter
                      (fun b => !(isToolResultBlock b)))) }]
        ∧ toolMsgs ≠ []
        ∧ (∀ m ∈ toolMsgs, m.role = "tool")
        ∧ toolMsgs.map (·.tool_call_id)
            = ([AnthropicUserContentBlock.toolResult "tu1" (.str "out")
                  false, .text "hello"].filter isToolResultBlock).map
                toolResultId := by
  have h1 : [AnthropicUserContentBlock.toolResult "tu1" (.str "out") false,
      .text "hello"].filter isToolResultBlock
      = [AnthropicUserContentBlock.toolResult "tu1" (.str "out") false] := rfl
  have h2 : [AnthropicUserContentBlock.toolResult "tu1" (.str "out") false,
      .text "hello"].filter (fun b => !(isToolResultBlock b))
      = [AnthropicUserContentBlock.text "hello"] := rfl
  refine ⟨?_, ?_, c6_handleUserMessage_order _ ?_ ?_⟩
  all_goals (first
    | (rw [h1]; exact List.cons_ne_nil _ _)
    | (rw [h2]; exact List.cons_ne_nil _ _))

/-- C7: for a count-tokens request with a known model and a non-empty
tools list, when no tool name starts with `mcp__` (a check only performed
when the `anthropic-beta` header starts with `claude-code`), 346 is added
to the tokenizer's input for `claude*` models and 480 for `grok*` models,
and the final input+output sum is multiplied by 1.15 (`claude*`) or 1.03
(`grok*`) and rounded; in particular a tokenizer result `{input: 100,
output: 0}` with one non-mcp tool on `claude-sonnet-4` yields
`{input_tokens: 513}`.  `Math.round(x * 1.15)` is modelled with exact
rational arithmetic. -/
theorem c7_count_tokens_adjustment :
    (∀ (beta : Option String) (tools : List AnthropicTool) (model : String)
        (input output : Int) (ms : List String) (m0 : String),
      tools ≠ [] →
      (∀ b, beta = some b → jsStartsWith b "claude-code" = true →
        ∀ t ∈ tools, jsStartsWith t.name "mcp__" = false) →
      ms.find? (fun m => m = model) = some m0 →
      (jsStartsWith model "claude" = true →
        handleCountTokens beta (.ok { model := model, tools := some tools })
            (some ms) (.ok { input := input, output := output })
          = .ok (jsMathRound (((input + 346 + output : Int) : ℚ) * (115 / 100))))
      ∧ (jsStartsWith model "grok" = true →
        handleCountTokens beta (.ok { model := model, tools := some tools })
            (some ms) (.ok { input := input, output := output })
          = .ok (jsMathRound (((input + 480 + output : Int) : ℚ) * (103 / 100)))))
    ∧ handleCountTokens none
        (.ok { model := "claude-sonnet-4", tools := some [{ name := "t" }] })
        (some ["claude-sonnet-4"]) (.ok { input := 100, output := 0 })
        = .ok 513 := by
  constructor
  · intro beta tools model input output ms m0 htools hmcp hfind
    have hlen : tools.length > 0 := List.length_pos.mpr htools
    have hmcpF : mcpToolExistCheck beta tools = false := by
      cases beta with
      | none => rfl
      | some b =>
        rw [mcpToolExistCheck]
        by_cases hb : jsStartsWith b "claude-code" = true
        · simp only [hb, if_true, List.any_eq_false]
          intro t ht
          simp [hmcp b rfl hb t ht]
        · simp [hb]
    constructor
    · intro hclaude
      simp only [handleCountTokens, hfind]
      rw [countTokensResult]
      simp only [hmcpF, hlen, if_pos, Bool.not_false, if_true, hclaude]
    · intro hgrok
      have hnc : jsStartsWith model "claude" = false :=
        not_claude_of_grok model hgrok
      simp only [handleCountTokens, hfind]
      rw [countTokensResult]
      simp only [hmcpF, hlen, if_pos, Bool.not_false, if_true, hgrok, hnc,
        Bool.false_eq_true, if_false]
  · simp +decide [handleCountTokens, countTokensResult, mcpToolExistCheck]
    norm_num [jsMathRound]

/-- Witness for C7: the general adjustment rule applied at the concrete
claim example (`claude-sonnet-4`, one tool named `t`, tokenizer
`{input: 100, output: 0}`). -/
theorem c7_witness :
    (([({ name := "t" } : AnthropicTool)] ≠ ([] : List AnthropicTool))
      ∧ ["claude-sonnet-4"].find? (fun m => m = "claude-sonnet-4")
          = some "claude-sonnet-4"
      ∧ jsStartsWith "claude-sonnet-4" "claude" = true)
    ∧ handleCountTokens none
        (.ok { model := "claude-sonnet-4", tools := some [{ name := "t" }] })
        (some ["claude-sonnet-4"]) (.ok { input := 100, output := 0 })
        = .ok (jsMathRound (((100 + 346 + 0 : Int) : ℚ) * (115 / 100))) :=
  ⟨⟨by decide, by decide, by decide⟩,
    ((c7_count_tokens_adjustment.1 none [{ name := "t" }] "claude-sonnet-4"
      100 0 ["claude-sonnet-4"] "claude-sonnet-4" (by decide)
      (fun b hb => by cases hb) (by decide)).1 (by decide))⟩

/-- C9: the count-tokens endpoint never surfaces an error to the client:
the handler's result is always an HTTP-success `{input_tokens: n}` body,
and it is `{input_tokens: 1}` whenever the request body read throws, the
requested model is not in the catalog (or the catalog is absent), or the
tokenizer throws. -/
theorem c9_count_tokens_never_errors :
    (∀ beta body models tokenizer, ∃ n,
      handleCountTokens beta body models tokenizer = .ok n)
    ∧ (∀ beta models tokenizer,
        handleCountTokens beta (.error ()) models tokenizer = .ok 1)
    ∧ (∀ beta payload tokenizer,
        handleCountTokens beta (.ok payload) none tokenizer = .ok 1)
    ∧ (∀ beta payload ms tokenizer,
        ms.find? (fun m => m = payload.model) = none →
        handleCountTokens beta (.ok payload) (some ms) tokenizer = .ok 1)
    ∧ (∀ beta payload models,
        handleCountTokens beta (.ok payload) models (.error ()) = .ok 1) := by
  refine ⟨?_, ?_, ?_, ?_, ?_⟩
  · intro beta body models tokenizer
    cases body with
    | error e => exact ⟨1, rfl⟩
    | ok payload =>
      cases models with
      | none => exact ⟨1, rfl⟩
      | some ms =>
        simp only [handleCountTokens]
        cases hf : ms.find? (fun m => m = payload.model) with
        | none => exact ⟨1, rfl⟩
        | some m0 =>
          cases tokenizer with
          | error e => exact ⟨1, rfl⟩
          | ok tc => exact ⟨countTokensResult beta payload tc, rfl⟩
  · intro beta models tokenizer
    rfl
  · intro beta payload tokenizer
    rfl
  · intro beta payload ms tokenizer hf
    simp only [handleCountTokens, hf]
  · intro beta payload models
    cases models with
    | none => rfl
    | some ms =>
      simp only [handleCountTokens]
      cases hf : ms.find? (fun m => m = payload.model) <;> simp only [hf]

/-- Witness for C9: with an unknown model the handler answers
`{input_tokens: 1}`. -/
theorem c9_witness :
    (["gpt-4"].find? (fun m =>
        m = ({ model := "claude-x", tools := none } :
          CountTokensPayload).model) = none)
    ∧ handleCountTokens none
        (.ok { model := "claude-x", tools := none }) (some ["gpt-4"])
        (.ok { input := 7, output := 0 }) = .ok 1 :=
  ⟨by decide,
    c9_count_tokens_never_errors.2.2.2.1 none
      { model := "claude-x", tools := none } ["gpt-4"]
      (.ok { input := 7, output := 0 }) (by decide)⟩

/-- C10: when `ensureMessageStart` fires before any response metadata has
been cached (no well-formed `response` object seen: the caches are all
unset and the call itself carries no response), the emitted
`message_start` defaults to id `"response"`, model `""`,
`usage.input_tokens = 0`, `output_tokens = 0`, and omits
`cache_creation_input_tokens`. -/
theorem c10_ensureMessageStart_defaults (s : ResponsesStreamState)
    (h1 : s.messageStartSent = false) (h2 : s.currentResponseId = none)
    (h3 : s.currentModel = none) (h4 : s.initialInputTokens = none)
    (h5 : s.initialInputCachedTokens = none) :
    (ensureMessageStart s none).2 = [.messageStart defaultMessageStartInfo] := by
  rw [ensureMessageStart]
  simp [h1, h2, h3, h4, h5, defaultMessageStartInfo]

/-- Witness for C10 at the fresh stream state. -/
theorem c10_witness :
    (createResponsesStreamState.messageStartSent = false
      ∧ createResponsesStreamState.currentResponseId = none
      ∧ createResponsesStreamState.currentModel = none
      ∧ createResponsesStreamState.initialInputTokens = none
      ∧ createResponsesStreamState.initialInputCachedTokens = none)
    ∧ (ensureMessageStart createResponsesStreamState none).2
        = [.messageStart defaultMessageStartInfo] :=
  ⟨⟨rfl, rfl, rfl, rfl, rfl⟩,
    c10_ensureMessageStart_defaults createResponsesStreamState
      rfl rfl rfl rfl rfl⟩

/-! ## Stream translator invariants (C1, C4, C8) -/

@[simp] theorem cbStartCount_nil : cbStartCount [] = 0 := rfl
@[simp] theorem cbStopCount_nil : cbStopCount [] = 0 := rfl
@[simp] theorem msgStartCount_nil : msgStartCount [] = 0 := rfl
@[simp] theorem msgStopCount_nil : msgStopCount [] = 0 := rfl

@[simp] theorem cbStartCount_append (a b : List AnthropicStreamEvent) :
    cbStartCount (a ++ b) = cbStartCount a + cbStartCount b :=
  List.countP_append _ _ _

@[simp] theorem cbStopCount_append (a b : List AnthropicStreamEvent) :
    cbStopCount (a ++ b) = cbStopCount a + cbStopCount b :=
  List.countP_append _ _ _

@[simp] theorem msgStartCount_append (a b : List AnthropicStreamEvent) :
    msgStartCount (a ++ b) = msgStartCount a + msgStartCount b :=
  List.countP_append _ _ _

@[simp] theorem msgStopCount_append (a b : List AnthropicStreamEvent) :
    msgStopCount (a ++ b) = msgStopCount a + msgStopCount b :=
  List.countP_append _ _ _

@[simp] theorem cbStartCount_cons (e : AnthropicStreamEvent) (l : List AnthropicStreamEvent) :
    cbStartCount (e :: l) = cbStartCount l + (if isContentBlockStart e then 1 else 0) :=
  List.countP_cons _ _ _

@[simp] theorem cbStopCount_cons (e : AnthropicStreamEvent) (l : List AnthropicStreamEvent) :
    cbStopCount (e :: l) = cbStopCount l + (if isContentBlockStop e then 1 else 0) :=
  List.countP_cons _ _ _

@[simp] theorem msgStartCount_cons (e : AnthropicStreamEvent) (l : List AnthropicStreamEvent) :
    msgStartCount (e :: l) = msgStartCount l + (if isMessageStart e then 1 else 0) :=
  List.countP_cons _ _ _

@[simp] theorem msgStopCount_cons (e : AnthropicStreamEvent) (l : List AnthropicStreamEvent) :
    msgStopCount (e :: l) = msgStopCount l + (if isMessageStop e then 1 else 0) :=
  List.countP_cons _ _ _

@[simp] theorem isContentBlockStart_messageStart (i : MessageStartInfo) :
    isContentBlockStart (.messageStart i) = false := rfl

@[simp] theorem isContentBlockStart_contentBlockStart (n : Nat) (b : ContentBlockInit) :
    isContentBlockStart (.contentBlockStart n b) = true := rfl

@[simp] theorem isContentBlockStart_contentBlockDelta (n : Nat) (d : BlockDelta) :
    isContentBlockStart (.contentBlockDelta n d) = false := rfl

@[simp] theorem isContentBlockStart_contentBlockStop (n : Nat) :
    isContentBlockStart (.contentBlockStop n) = false := rfl

@[simp] theorem isContentBlockStart_messageDelta (sr ss : Option String) (u : Option AnthropicUsage) :
    isContentBlockStart (.messageDelta sr ss u) = false := rfl

@[simp] theorem isContentBlockStart_messageStop :
    isContentBlockStart (.messageStop) = false := rfl

@[simp] theorem isContentBlockStart_errorEvent (m : String) :
    isContentBlockStart (.errorEvent m) = false := rfl

@[simp] theorem isContentBlockStop_messageStart (i : MessageStartInfo) :
    isContentBlockStop (.messageStart i) = false := rfl

@[simp] theorem isContentBlockStop_contentBlockStart (n : Nat) (b : ContentBlockInit) :
    isContentBlockStop (.contentBlockStart n b) = false := rfl

@[simp] theorem isContentBlockStop_contentBlockDelta (n : Nat) (d : BlockDelta) :
    isContentBlockStop (.contentBlockDelta n d) = false := rfl

@[simp] theorem isContentBlockStop_contentBlockStop (n : Nat) :
    isContentBlockStop (.contentBlockStop n) = true := rfl

@[simp] theorem isContentBlockStop_messageDelta (sr ss : Option String) (u : Option AnthropicUsage) :
    isContentBlockStop (.messageDelta sr ss u) = false := rfl

@[simp] theorem isContentBlockStop_messageStop :
    isContentBlockStop (.messageStop) = false := rfl

@[simp] theorem isContentBlockStop_errorEvent (m : String) :
    isContentBlockStop (.errorEvent m) = false := rfl

@[simp] theorem isMessageStart_messageStart (i : MessageStartInfo) :
    isMessageStart (.messageStart i) = true := rfl

@[simp] theorem isMessageStart_contentBlockStart (n : Nat) (b : ContentBlockInit) :
    isMessageStart (.contentBlockStart n b) = false := rfl

@[simp] theorem isMessageStart_contentBlockDelta (n : Nat) (d : BlockDelta) :
    isMessageStart (.contentBlockDelta n d) = false := rfl

@[simp] theorem isMessageStart_contentBlockStop (n : Nat) :
    isMessageStart (.contentBlockStop n) = false := rfl

@[simp] theorem isMessageStart_messageDelta (sr ss : Option String) (u : Option AnthropicUsage) :
    isMessageStart (.messageDelta sr ss u) = false := rfl

@[simp] theorem isMessageStart_messageStop :
    isMessageStart (.messageStop) = false := rfl

@[simp] theorem isMessageStart_errorEvent (m : String) :
    isMessageStart (.errorEvent m) = false := rfl

@[simp] theorem isMessageStop_messageStart (i : MessageStartInfo) :
    isMessageStop (.messageStart i) = false := rfl

@[simp] theorem isMessageStop_contentBlockStart (n : Nat) (b : ContentBlockInit) :
    isMessageStop (.contentBlockStart n b) = false := rfl

@[simp] theorem isMessageStop_contentBlockDelta (n : Nat) (d : BlockDelta) :
    isMessageStop (.contentBlockDelta n d) = false := rfl

@[simp] theorem isMessageStop_contentBlockStop (n : Nat) :
    isMessageStop (.contentBlockStop n) = false := rfl

@[simp] theorem isMessageStop_messageDelta (sr ss : Option String) (u : Option AnthropicUsage) :
    isMessageStop (.messageDelta sr ss u) = false := rfl

@[simp] theorem isMessageStop_messageStop :
    isMessageStop (.messageStop) = true := rfl

@[simp] theorem isMessageStop_errorEvent (m : String) :
    isMessageStop (.errorEvent m) = false := rfl

theorem msgStartCount_dropLast_le (l : List AnthropicStreamEvent) :
    msgStartCount l.dropLast ≤ msgStartCount l :=
  List.Sublist.countP_le _ (List.dropLast_sublist l)

theorem msgStopCount_dropLast_le (l : List AnthropicStreamEvent) :
    msgStopCount l.dropLast ≤ msgStopCount l :=
  List.Sublist.countP_le _ (List.dropLast_sublist l)

/-- `ensureMessageStart` leaves the open-block set unchanged. -/
theorem ensureMessageStart_openBlocks (s : ResponsesStreamState)
    (resp : Option ResponsesResult) :
    (ensureMessageStart s resp).1.openBlocks = s.openBlocks := by
  unfold ensureMessageStart
  split
  · rfl
  · cases resp <;> simp [cacheResponseMetadata]

/-- `ensureMessageStart` leaves `messageCompleted` unchanged. -/
theorem ensureMessageStart_completed (s : ResponsesStreamState)
    (resp : Option ResponsesResult) :
    (ensureMessageStart s resp).1.messageCompleted = s.messageCompleted := by
  unfold ensureMessageStart
  split
  · rfl
  · cases resp <;> simp [cacheResponseMetadata]

/-- `ensureMessageStart` emits no block events and no `message_stop`. -/
theorem ensureMessageStart_counts (s : ResponsesStreamState)
    (resp : Option ResponsesResult) :
    cbStartCount (ensureMessageStart s resp).2 = 0
    ∧ cbStopCount (ensureMessageStart s resp).2 = 0
    ∧ msgStopCount (ensureMessageStart s resp).2 = 0 := by
  unfold ensureMessageStart
  split
  · exact ⟨rfl, rfl, rfl⟩
  · cases resp <;>
      exact ⟨rfl, rfl, rfl⟩

/-- When `message_start` was already sent, `ensureMessageStart` is a no-op. -/
theorem ensureMessageStart_of_sent (s : ResponsesStreamState)
    (resp : Option ResponsesResult) (h : s.messageStartSent = true) :
    ensureMessageStart s resp = (s, []) := by
  unfold ensureMessageStart
  simp [h]

/-- When `message_start` was not yet sent, `ensureMessageStart` emits exactly
one `message_start` and marks it sent. -/
theorem ensureMessageStart_of_not_sent (s : ResponsesStreamState)
    (resp : Option ResponsesResult) (h : s.messageStartSent = false) :
    (ensureMessageStart s resp).1.messageStartSent = true
    ∧ ∃ i, (ensureMessageStart s resp).2 = [.messageStart i] := by
  unfold ensureMessageStart
  simp only [h, Bool.false_eq_true, if_false]
  cases resp <;> exact ⟨trivial, ⟨_, rfl⟩⟩

/-- Block-event bookkeeping of `openTextBlockIfNeeded`: one
`content_block_start` is emitted exactly when the open-block set grows. -/
theorem openTextBlockIfNeeded_inv (s : ResponsesStreamState) (oi ci : Int) :
    cbStartCount (openTextBlockIfNeeded s oi ci).events + s.openBlocks.length
      = (openTextBlockIfNeeded s oi ci).state.openBlocks.length
    ∧ cbStopCount (openTextBlockIfNeeded s oi ci).events = 0
    ∧ msgStartCount (openTextBlockIfNeeded s oi ci).events = 0
    ∧ msgStopCount (openTextBlockIfNeeded s oi ci).events = 0
    ∧ (openTextBlockIfNeeded s oi ci).state.messageStartSent = s.messageStartSent
    ∧ (openTextBlockIfNeeded s oi ci).state.messageCompleted = s.messageCompleted := by
  unfold openTextBlockIfNeeded
  cases hl : s.blockIndexByKey.lookup (getBlockKey oi ci) <;>
    simp only [hl] <;> split_ifs with hc <;>
      simp_all [setAdd, cbStartCount, cbStopCount, msgStartCount, msgStopCount,
        isContentBlockStart, isContentBlockStop, isMessageStart, isMessageStop] <;>
      omega

/-- Same bookkeeping for `openThinkingBlockIfNeeded`. -/
theorem openThinkingBlockIfNeeded_inv (s : ResponsesStreamState) (oi : Int) :
    cbStartCount (openThinkingBlockIfNeeded s oi).events + s.openBlocks.length
      = (openThinkingBlockIfNeeded s oi).state.openBlocks.length
    ∧ cbStopCount (openThinkingBlockIfNeeded s oi).events = 0
    ∧ msgStartCount (openThinkingBlockIfNeeded s oi).events = 0
    ∧ msgStopCount (openThinkingBlockIfNeeded s oi).events = 0
    ∧ (openThinkingBlockIfNeeded s oi).state.messageStartSent = s.messageStartSent
    ∧ (openThinkingBlockIfNeeded s oi).state.messageCompleted = s.messageCompleted := by
  unfold openThinkingBlockIfNeeded
  cases hl : s.blockIndexByKey.lookup (getBlockKey oi 0) <;>
    simp only [hl] <;> split_ifs with hc <;>
      simp_all [setAdd, cbStartCount, cbStopCount, msgStartCount, msgStopCount,
        isContentBlockStart, isContentBlockStop, isMessageStart, isMessageStop] <;>
      omega

/-- Same bookkeeping for `openFunctionCallBlock`. -/
theorem openFunctionCallBlock_inv (s : ResponsesStreamState) (oi : Int)
    (tid nm : Option String) :
    cbStartCount (openFunctionCallBlock s oi tid nm).events + s.openBlocks.length
      = (openFunctionCallBlock s oi tid nm).state.openBlocks.length
    ∧ cbStopCount (openFunctionCallBlock s oi tid nm).events = 0
    ∧ msgStartCount (openFunctionCallBlock s oi tid nm).events = 0
    ∧ msgStopCount (openFunctionCallBlock s oi tid nm).events = 0
    ∧ (openFunctionCallBlock s oi tid nm).state.messageStartSent = s.messageStartSent
    ∧ (openFunctionCallBlock s oi tid nm).state.messageCompleted = s.messageCompleted := by
  unfold openFunctionCallBlock
  cases hl : s.functionCallStateByOutputIndex.lookup oi <;>
    simp only [hl] <;> split_ifs with hc <;>
      simp_all [setAdd, cbStartCount, cbStopCount, msgStartCount, msgStopCount,
        isContentBlockStart, isContentBlockStop, isMessageStart, isMessageStop] <;>
      omega

/-- Bookkeeping of `closeBlockIfOpen`: one `content_block_stop` is emitted
exactly when the open-block set shrinks. -/
theorem closeBlockIfOpen_inv (s : ResponsesStreamState) (b : Nat) :
    cbStopCount (closeBlockIfOpen s b).2
        + (closeBlockIfOpen s b).1.openBlocks.length
      = s.openBlocks.length
    ∧ cbStartCount (closeBlockIfOpen s b).2 = 0
    ∧ msgStartCount (closeBlockIfOpen s b).2 = 0
    ∧ msgStopCount (closeBlockIfOpen s b).2 = 0
    ∧ (closeBlockIfOpen s b).1.messageStartSent = s.messageStartSent
    ∧ (closeBlockIfOpen s b).1.messageCompleted = s.messageCompleted := by
  unfold closeBlockIfOpen
  split_ifs with hc
  · have hm : b ∈ s.openBlocks := by simpa using hc
    have hlen := List.length_erase_of_mem hm
    have hpos : 0 < s.openBlocks.length :=
      List.length_pos.mpr (List.ne_nil_of_mem hm)
    simp_all [cbStartCount, cbStopCount, msgStartCount, msgStopCount,
      isContentBlockStart, isContentBlockStop, isMessageStart, isMessageStop]
    omega
  · simp [cbStartCount, cbStopCount, msgStartCount, msgStopCount]

/-- Bookkeeping of `closeAllOpenBlocks`: one `content_block_stop` per open
block, and the open-block set is emptied. -/
theorem closeAllOpenBlocks_inv (s : ResponsesStreamState) :
    (closeAllOpenBlocks s).1.openBlocks = []
    ∧ cbStopCount (closeAllOpenBlocks s).2 = s.openBlocks.length
    ∧ cbStartCount (closeAllOpenBlocks s).2 = 0
    ∧ msgStartCount (closeAllOpenBlocks s).2 = 0
    ∧ msgStopCount (closeAllOpenBlocks s).2 = 0
    ∧ (closeAllOpenBlocks s).1.messageStartSent = s.messageStartSent
    ∧ (closeAllOpenBlocks s).1.messageCompleted = s.messageCompleted := by
  unfold closeAllOpenBlocks
  refine ⟨rfl, ?_, ?_, ?_, ?_, rfl, rfl⟩ <;>
    simp [cbStartCount, cbStopCount, msgStartCount, msgStopCount,
      List.countP_map, isContentBlockStart, isContentBlockStop,
      isMessageStart, isMessageStop, Function.comp]

/-- Composition principle: a handler that first runs `ensureMessageStart`
and then emits only events that are not `message_start`, with balanced
block events, satisfies the step invariants. -/
theorem stepInvariant_of_ensure (s t s' : ResponsesStreamState)
    (X : Option ResponsesResult) (rem : List AnthropicStreamEvent)
    (hsent0 : t.messageStartSent = s.messageStartSent)
    (hbal : cbStartCount rem + s.openBlocks.length
        = cbStopCount rem + s'.openBlocks.length)
    (hstart : msgStartCount rem = 0)
    (hsent : s'.messageStartSent = (ensureMessageStart t X).1.messageStartSent)
    (hstopd : msgStopCount rem.dropLast = 0)
    (hstop : msgStopCount rem ≠ 0 → s'.messageCompleted = true) :
    StepInvariant s s' ((ensureMessageStart t X).2 ++ rem) := by
  cases hs : s.messageStartSent with
  | true =>
    have hE := ensureMessageStart_of_sent t X (hsent0.trans hs)
    rw [hE] at hsent ⊢
    refine ⟨by simpa using hbal,
      fun _ => ⟨by simpa using hstart, by rw [hsent, hsent0]; exact hs⟩,
      ?_, by simpa using hstopd, ?_⟩
    · intro hf; rw [hs] at hf; cases hf
    · intro hne
      exact hstop (by simpa using hne)
  | false =>
    obtain ⟨hsent1, i, h2⟩ := ensureMessageStart_of_not_sent t X (hsent0.trans hs)
    rw [h2]
    rw [hsent1] at hsent
    refine ⟨?_, ?_, ?_, ?_, ?_⟩
    · simpa [cbStartCount, cbStopCount, isContentBlockStart, isContentBlockStop]
        using hbal
    · intro hf; rw [hs] at hf; cases hf
    · intro _
      refine Or.inr (Or.inl ⟨i, rem, by simp, hstart, hsent⟩)
    · cases rem with
      | nil => rfl
      | cons a l =>
        simpa [msgStopCount, isMessageStop] using hstopd
    · intro hne
      refine hstop ?_
      simpa [msgStopCount, isMessageStop] using hne

/-- Step invariants for the `response.output_text.delta` handler. -/
theorem handleOutputTextDelta_inv (r : RawEvent) (s : ResponsesStreamState) :
    StepInvariant s (handleOutputTextDelta r s).1 (handleOutputTextDelta r s).2 := by
  unfold handleOutputTextDelta
  simp only []
  split_ifs with hd
  · have h := stepInvariant_of_ensure s s (ensureMessageStart s none).1 none []
      rfl (by simp [ensureMessageStart_openBlocks]) rfl rfl rfl
      (fun hne => absurd rfl hne)
    simpa using h
  · rw [List.append_assoc]
    obtain ⟨hb, hstop0, hms, hmstop, hsent1, hcomp⟩ :=
      openTextBlockIfNeeded_inv (ensureMessageStart s none).1
        (toNumber r.output_index) (toNumber r.content_index)
    have hopen := congrArg List.length (ensureMessageStart_openBlocks s none)
    refine stepInvariant_of_ensure s s _ none _ rfl ?_ ?_ ?_ ?_ ?_
    · simp
      omega
    · simp [hms]
    · exact hsent1
    · rw [List.dropLast_concat]
      exact hmstop
    · intro hne
      exact absurd (by simp [hmstop]) hne

/-- Step invariants for the `response.reasoning_summary_text.delta`
handler. -/
theorem handleReasoningSummaryTextDelta_inv (r : RawEvent)
    (s : ResponsesStreamState) :
    StepInvariant s (handleReasoningSummaryTextDelta r s).1
      (handleReasoningSummaryTextDelta r s).2 := by
  unfold handleReasoningSummaryTextDelta
  simp only []
  split_ifs with hd
  · have h := stepInvariant_of_ensure s s (ensureMessageStart s none).1 none []
      rfl (by simp [ensureMessageStart_openBlocks]) rfl rfl rfl
      (fun hne => absurd rfl hne)
    simpa using h
  · rw [List.append_assoc]
    obtain ⟨hb, hstop0, hms, hmstop, hsent1, hcomp⟩ :=
      openThinkingBlockIfNeeded_inv (ensureMessageStart s none).1
        (toNumber r.output_index)
    have hopen := congrArg List.length (ensureMessageStart_openBlocks s none)
    refine stepInvariant_of_ensure s s _ none _ rfl ?_ ?_ ?_ ?_ ?_
    · simp
      omega
    · simp [hms]
    · exact hsent1
    · rw [List.dropLast_concat]
      exact hmstop
    · intro hne
      exact absurd (by simp [hmstop]) hne

/-- Step invariants for the `response.reasoning_summary_part.done`
handler. -/
theorem handleReasoningSummaryPartDone_inv (r : RawEvent)
    (s : ResponsesStreamState) :
    StepInvariant s (handleReasoningSummaryPartDone r s).1
      (handleReasoningSummaryPartDone r s).2 := by
  unfold handleReasoningSummaryPartDone
  simp only []
  obtain ⟨hb, hstop0, hms, hmstop, hsent1, hcomp⟩ :=
    openThinkingBlockIfNeeded_inv (ensureMessageStart s none).1
      (toNumber r.output_index)
  have hopen := congrArg List.length (ensureMessageStart_openBlocks s none)
  split_ifs with hd
  · rw [List.append_assoc]
    refine stepInvariant_of_ensure s s _ none _ rfl ?_ ?_ ?_ ?_ ?_
    · simp
      omega
    · simp [hms]
    · exact hsent1
    · rw [List.dropLast_concat]
      exact hmstop
    · intro hne
      exact absurd (by simp [hmstop]) hne
  · refine stepInvariant_of_ensure s s _ none _ rfl ?_ ?_ ?_ ?_ ?_
    · simp
      omega
    · exact hms
    · exact hsent1
    · exact (Nat.le_zero.mp (hmstop ▸ msgStopCount_dropLast_le _))
    · intro hne
      exact absurd hmstop hne

theorem msgStopCount_dropLast_eq_zero {l : List AnthropicStreamEvent}
    (h : msgStopCount l = 0) : msgStopCount l.dropLast = 0 :=
  Nat.le_zero.mp (h ▸ msgStopCount_dropLast_le l)

/-- Step invariants for the `response.output_text.done` handler. -/
theorem handleOutputTextDone_inv (r : RawEvent) (s : ResponsesStreamState) :
    StepInvariant s (handleOutputTextDone r s).1
      (handleOutputTextDone r s).2 := by
  unfold handleOutputTextDone
  simp only []
  obtain ⟨hb, hstop0, hms, hmstop, hsent1, hcomp⟩ :=
    openTextBlockIfNeeded_inv (ensureMessageStart s none).1
      (toNumber r.output_index) (toNumber r.content_index)
  have hopen := congrArg List.length (ensureMessageStart_openBlocks s none)
  split_ifs with hw
  · obtain ⟨hc1, hc2, hc3, hc4, hc5, hc6⟩ :=
      closeBlockIfOpen_inv
        (openTextBlockIfNeeded (ensureMessageStart s none).1
          (toNumber r.output_index) (toNumber r.content_index)).state
        (openTextBlockIfNeeded (ensureMessageStart s none).1
          (toNumber r.output_index) (toNumber r.content_index)).blockIndex
    rw [List.append_assoc]
    refine stepInvariant_of_ensure s s _ none _ rfl ?_ ?_ ?_ ?_ ?_
    · simp
      omega
    · simp [hms, hc3]
    · exact hc5.trans hsent1
    · exact msgStopCount_dropLast_eq_zero (by simp [hmstop, hc4])
    · intro hne
      exact absurd (by simp [hmstop, hc4]) hne
  · obtain ⟨hc1, hc2, hc3, hc4, hc5, hc6⟩ :=
      closeBlockIfOpen_inv
        (openTextBlockIfNeeded (ensureMessageStart s none).1
          (toNumber r.output_index) (toNumber r.content_index)).state
        (openTextBlockIfNeeded (ensureMessageStart s none).1
          (toNumber r.output_index) (toNumber r.content_index)).blockIndex
    rw [List.append_assoc]
    refine stepInvariant_of_ensure s s _ none _ rfl ?_ ?_ ?_ ?_ ?_
    · simp
      omega
    · simp [hms, hc3]
    · exact hc5.trans hsent1
    · exact msgStopCount_dropLast_eq_zero (by simp [hmstop, hc4])
    · intro hne
      exact absurd (by simp [hmstop, hc4]) hne

/-- Step invariants for the `response.output_item.done` handler. -/
theorem handleOutputItemDone_inv (r : RawEvent) (s : ResponsesStreamState) :
    StepInvariant s (handleOutputItemDone r s).1
      (handleOutputItemDone r s).2 := by
  unfold handleOutputItemDone
  simp only []
  cases hitem : r.item with
  | none =>
    have h := stepInvariant_of_ensure s s (ensureMessageStart s none).1 none []
      rfl (by simp [ensureMessageStart_openBlocks]) rfl rfl rfl
      (fun hne => absurd rfl hne)
    simpa using h
  | some item =>
    simp only []
    obtain ⟨hb, hstop0, hms, hmstop, hsent1, hcomp⟩ :=
      openThinkingBlockIfNeeded_inv (ensureMessageStart s none).1
        (toNumber r.output_index)
    have hopen := congrArg List.length (ensureMessageStart_openBlocks s none)
    split_ifs with ht hw
    · have h := stepInvariant_of_ensure s s (ensureMessageStart s none).1 none []
        rfl (by simp [ensureMessageStart_openBlocks]) rfl rfl rfl
        (fun hne => absurd rfl hne)
      simpa using h
    · obtain ⟨hc1, hc2, hc3, hc4, hc5, hc6⟩ :=
        closeBlockIfOpen_inv
          { (openThinkingBlockIfNeeded (ensureMessageStart s none).1
              (toNumber r.output_index)).state with
            blockHasDelta :=
              setAdd (openThinkingBlockIfNeeded (ensureMessageStart s none).1
                  (toNumber r.output_index)).state.blockHasDelta
                (openThinkingBlockIfNeeded (ensureMessageStart s none).1
                  (toNumber r.output_index)).blockIndex }
          (openThinkingBlockIfNeeded (ensureMessageStart s none).1
            (toNumber r.output_index)).blockIndex
      rw [List.append_assoc]
      refine stepInvariant_of_ensure s s _ none _ rfl ?_ ?_ ?_ ?_ ?_
      · simp only [cbStartCount_append, cbStopCount_append, cbStartCount_cons,
          cbStopCount_cons, cbStartCount_nil, cbStopCount_nil,
          isContentBlockStart_contentBlockDelta, isContentBlockStop_contentBlockDelta,
          if_neg, Bool.false_eq_true, ite_false] at hc1 hc2 hc3 hc4 hc5 hc6 ⊢
        omega
      · simp [hms, hc3]
      · exact hc5.trans hsent1
      · exact msgStopCount_dropLast_eq_zero (by simp [hmstop, hc4])
      · intro hne
        exact absurd (by simp [hmstop, hc4]) hne
    · obtain ⟨hc1, hc2, hc3, hc4, hc5, hc6⟩ :=
        closeBlockIfOpen_inv
          (openThinkingBlockIfNeeded (ensureMessageStart s none).1
            (toNumber r.output_index)).state
          (openThinkingBlockIfNeeded (ensureMessageStart s none).1
            (toNumber r.output_index)).blockIndex
      rw [List.append_assoc]
      refine stepInvariant_of_ensure s s _ none _ rfl ?_ ?_ ?_ ?_ ?_
      · simp
        omega
      · simp [hms, hc3]
      · exact hc5.trans hsent1
      · exact msgStopCount_dropLast_eq_zero (by simp [hmstop, hc4])
      · intro hne
        exact absurd (by simp [hmstop, hc4]) hne

/-- Step invariants for the `response.function_call_arguments.delta`
handler. -/
theorem handleFunctionCallArgumentsDelta_inv (r : RawEvent)
    (s : ResponsesStreamState) :
    StepInvariant s (handleFunctionCallArgumentsDelta r s).1
      (handleFunctionCallArgumentsDelta r s).2 := by
  unfold handleFunctionCallArgumentsDelta
  simp only []
  cases hres : resolveFunctionCallOutputIndex (ensureMessageStart s none).1 r with
  | none =>
    have h := stepInvariant_of_ensure s s (ensureMessageStart s none).1 none []
      rfl (by simp [ensureMessageStart_openBlocks]) rfl rfl rfl
      (fun hne => absurd rfl hne)
    simpa using h
  | some oi =>
    simp only []
    split_ifs with hd
    · have h := stepInvariant_of_ensure s s (ensureMessageStart s none).1 none []
        rfl (by simp [ensureMessageStart_openBlocks]) rfl rfl rfl
        (fun hne => absurd rfl hne)
      simpa using h
    · rw [List.append_assoc]
      obtain ⟨hb, hstop0, hms, hmstop, hsent1, hcomp⟩ :=
        openFunctionCallBlock_inv (ensureMessageStart s none).1 oi none none
      have hopen := congrArg List.length (ensureMessageStart_openBlocks s none)
      refine stepInvariant_of_ensure s s _ none _ rfl ?_ ?_ ?_ ?_ ?_
      · simp
        omega
      · simp [hms]
      · exact hsent1
      · rw [List.dropLast_concat]
        exact hmstop
      · intro hne
        exact absurd (by simp [hmstop]) hne

/-- Step invariants for the `response.output_item.added` handler. -/
theorem handleOutputItemAdded_inv (r : RawEvent) (s : ResponsesStreamState) :
    StepInvariant s (handleOutputItemAdded r s).1
      (handleOutputItemAdded r s).2 := by
  unfold handleOutputItemAdded
  simp only []
  cases hx : extractFunctionCallDetails r (ensureMessageStart s r.response).1 with
  | none =>
    have h := stepInvariant_of_ensure s s (ensureMessageStart s r.response).1
      r.response [] rfl (by simp [ensureMessageStart_openBlocks]) rfl rfl rfl
      (fun hne => absurd rfl hne)
    simpa using h
  | some d =>
    simp only []
    have hopen := congrArg List.length (ensureMessageStart_openBlocks s r.response)
    cases hiid : d.itemId with
    | some iid =>
      simp only []
      obtain ⟨hb, hstop0, hms, hmstop, hsent1, hcomp⟩ :=
        openFunctionCallBlock_inv
          { (ensureMessageStart s r.response).1 with
            functionCallOutputIndexByItemId :=
              assocSet (ensureMessageStart s r.response).1.functionCallOutputIndexByItemId
                iid d.outputIndex }
          d.outputIndex (some d.toolCallId) (some d.name)
      cases hargs : d.initialArguments with
      | some a =>
        simp only []
        split_ifs with hlen
        · rw [List.append_assoc]
          refine stepInvariant_of_ensure s s _ r.response _ rfl ?_ ?_ ?_ ?_ ?_
          · simp only [cbStartCount_append, cbStopCount_append, cbStartCount_cons,
              cbStopCount_cons, cbStartCount_nil, cbStopCount_nil,
              isContentBlockStart_contentBlockDelta,
              isContentBlockStop_contentBlockDelta]
              at hb hstop0 hms hmstop hsent1 hcomp ⊢
            omega
          · simp [hms]
          · exact hsent1
          · rw [List.dropLast_concat]
            exact hmstop
          · intro hne
            exact absurd (by simp [hmstop]) hne
        · refine stepInvariant_of_ensure s s _ r.response _ rfl ?_ ?_ ?_ ?_ ?_
          · try simp only [cbStartCount_append, cbStopCount_append, cbStartCount_nil,
              cbStopCount_nil] at hb hstop0 hms hmstop hsent1 hcomp ⊢
            omega
          · exact hms
          · exact hsent1
          · exact msgStopCount_dropLast_eq_zero hmstop
          · intro hne
            exact absurd hmstop hne
      | none =>
        try simp only []
        refine stepInvariant_of_ensure s s _ r.response _ rfl ?_ ?_ ?_ ?_ ?_
        · try simp only [cbStartCount_append, cbStopCount_append, cbStartCount_nil,
            cbStopCount_nil] at hb hstop0 hms hmstop hsent1 hcomp ⊢
          omega
        · exact hms
        · exact hsent1
        · exact msgStopCount_dropLast_eq_zero hmstop
        · intro hne
          exact absurd hmstop hne
    | none =>
      simp only []
      obtain ⟨hb, hstop0, hms, hmstop, hsent1, hcomp⟩ :=
        openFunctionCallBlock_inv (ensureMessageStart s r.response).1
          d.outputIndex (some d.toolCallId) (some d.name)
      cases hargs : d.initialArguments with
      | some a =>
        simp only []
        split_ifs with hlen
        · rw [List.append_assoc]
          refine stepInvariant_of_ensure s s _ r.response _ rfl ?_ ?_ ?_ ?_ ?_
          · simp only [cbStartCount_append, cbStopCount_append, cbStartCount_cons,
              cbStopCount_cons, cbStartCount_nil, cbStopCount_nil,
              isContentBlockStart_contentBlockDelta,
              isContentBlockStop_contentBlockDelta]
              at hb hstop0 hms hmstop hsent1 hcomp ⊢
            omega
          · simp [hms]
          · exact hsent1
          · rw [List.dropLast_concat]
            exact hmstop
          · intro hne
            exact absurd (by simp [hmstop]) hne
        · refine stepInvariant_of_ensure s s _ r.response _ rfl ?_ ?_ ?_ ?_ ?_
          · try simp only [cbStartCount_append, cbStopCount_append, cbStartCount_nil,
              cbStopCount_nil] at hb hstop0 hms hmstop hsent1 hcomp ⊢
            omega
          · exact hms
          · exact hsent1
          · exact msgStopCount_dropLast_eq_zero hmstop
          · intro hne
            exact absurd hmstop hne
      | none =>
        try simp only []
        refine stepInvariant_of_ensure s s _ r.response _ rfl ?_ ?_ ?_ ?_ ?_
        · try simp only [cbStartCount_append, cbStopCount_append, cbStartCount_nil,
            cbStopCount_nil] at hb hstop0 hms hmstop hsent1 hcomp ⊢
          omega
        · exact hms
        · exact hsent1
        · exact msgStopCount_dropLast_eq_zero hmstop
        · intro hne
          exact absurd hmstop hne

/-- Step invariants for the `response.function_call_arguments.done`
handler. -/
theorem handleFunctionCallArgumentsDone_inv (r : RawEvent)
    (s : ResponsesStreamState) :
    StepInvariant s (handleFunctionCallArgumentsDone r s).1
      (handleFunctionCallArgumentsDone r s).2 := by
  unfold handleFunctionCallArgumentsDone
  simp only []
  cases hres : resolveFunctionCallOutputIndex (ensureMessageStart s none).1 r with
  | none =>
    have h := stepInvariant_of_ensure s s (ensureMessageStart s none).1 none []
      rfl (by simp [ensureMessageStart_openBlocks]) rfl rfl rfl
      (fun hne => absurd rfl hne)
    simpa using h
  | some oi =>
    simp only []
    obtain ⟨hb, hstop0, hms, hmstop, hsent1, hcomp⟩ :=
      openFunctionCallBlock_inv (ensureMessageStart s none).1 oi none none
    have hopen := congrArg List.length (ensureMessageStart_openBlocks s none)
    cases hfin : jsTypeofString r.arguments with
    | some a =>
      simp only []
      split_ifs with hc
      · obtain ⟨hc1, hc2, hc3, hc4, hc5, hc6⟩ := closeBlockIfOpen_inv
          { (openFunctionCallBlock (ensureMessageStart s none).1 oi none
              none).state with
            blockHasDelta :=
              setAdd (openFunctionCallBlock (ensureMessageStart s none).1 oi
                  none none).state.blockHasDelta
                (openFunctionCallBlock (ensureMessageStart s none).1 oi none
                  none).blockIndex }
          (openFunctionCallBlock (ensureMessageStart s none).1 oi none
            none).blockIndex
        rw [List.append_assoc]
        refine stepInvariant_of_ensure s s _ none _ rfl ?_ ?_ ?_ ?_ ?_
        · split <;> split <;>
            (try simp only [cbStartCount_append, cbStopCount_append,
              cbStartCount_cons, cbStopCount_cons, cbStartCount_nil,
              cbStopCount_nil, isContentBlockStart_contentBlockDelta,
              isContentBlockStop_contentBlockDelta]
              at hc1 hc2 hc3 hc4 hc5 hc6 ⊢) <;>
            omega
        · simp [hms, hc3]
        · split <;> split <;> exact hc5.trans hsent1
        · exact msgStopCount_dropLast_eq_zero (by simp [hmstop, hc4])
        · intro hne
          exact absurd (by simp [hmstop, hc4]) hne
      · obtain ⟨hc1, hc2, hc3, hc4, hc5, hc6⟩ := closeBlockIfOpen_inv
          (openFunctionCallBlock (ensureMessageStart s none).1 oi none
            none).state
          (openFunctionCallBlock (ensureMessageStart s none).1 oi none
            none).blockIndex
        rw [List.append_assoc]
        refine stepInvariant_of_ensure s s _ none _ rfl ?_ ?_ ?_ ?_ ?_
        · split <;> split <;>
            (try simp only [cbStartCount_append, cbStopCount_append,
              cbStartCount_nil, cbStopCount_nil]
              at hc1 hc2 hc3 hc4 hc5 hc6 ⊢) <;>
            omega
        · simp [hms, hc3]
        · split <;> split <;> exact hc5.trans hsent1
        · exact msgStopCount_dropLast_eq_zero (by simp [hmstop, hc4])
        · intro hne
          exact absurd (by simp [hmstop, hc4]) hne
    | none =>
      simp only []
      obtain ⟨hc1, hc2, hc3, hc4, hc5, hc6⟩ := closeBlockIfOpen_inv
        (openFunctionCallBlock (ensureMessageStart s none).1 oi none
          none).state
        (openFunctionCallBlock (ensureMessageStart s none).1 oi none
          none).blockIndex
      rw [List.append_assoc]
      refine stepInvariant_of_ensure s s _ none _ rfl ?_ ?_ ?_ ?_ ?_
      · split <;> split <;>
          (try simp only [cbStartCount_append, cbStopCount_append,
            cbStartCount_nil, cbStopCount_nil]
            at hc1 hc2 hc3 hc4 hc5 hc6 ⊢) <;>
          omega
      · simp [hms, hc3]
      · split <;> split <;> exact hc5.trans hsent1
      · exact msgStopCount_dropLast_eq_zero (by simp [hmstop, hc4])
      · intro hne
        exact absurd (by simp [hmstop, hc4]) hne

/-- Step invariants for the `response.created` handler. -/
theorem handleResponseCreated_inv (r : RawEvent) (s : ResponsesStreamState) :
    StepInvariant s (handleResponseCreated r s).1
      (handleResponseCreated r s).2 := by
  unfold handleResponseCreated
  simp only []
  cases hresp : r.response with
  | none =>
    have h := stepInvariant_of_ensure s s (ensureMessageStart s none).1 none []
      rfl (by simp [ensureMessageStart_openBlocks]) rfl rfl rfl
      (fun hne => absurd rfl hne)
    simpa using h
  | some resp =>
    have h := stepInvariant_of_ensure s (cacheResponseMetadata s resp)
      (ensureMessageStart (cacheResponseMetadata s resp) (some resp)).1
      (some resp) [] (by simp [cacheResponseMetadata])
      (by simp [ensureMessageStart_openBlocks, cacheResponseMetadata])
      rfl rfl rfl (fun hne => absurd rfl hne)
    simpa using h

/-- Step invariants for the `response.completed` / `response.incomplete`
handler. -/
theorem handleResponseCompleted_inv (r : RawEvent) (s : ResponsesStreamState) :
    StepInvariant s (handleResponseCompleted r s).1
      (handleResponseCompleted r s).2 := by
  unfold handleResponseCompleted
  simp only []
  obtain ⟨ha1, ha2, ha3, ha4, ha5, ha6, ha7⟩ :=
    closeAllOpenBlocks_inv (ensureMessageStart s r.response).1
  have hopen := congrArg List.length (ensureMessageStart_openBlocks s r.response)
  have hlen := congrArg List.length ha1
  cases hresp : r.response with
  | none =>
    rw [List.append_assoc, List.append_assoc]
    refine stepInvariant_of_ensure s s _ none _ rfl ?_ ?_ ?_ ?_ ?_
    · simp only [cbStartCount_append, cbStopCount_append, cbStartCount_cons,
        cbStopCount_cons, cbStartCount_nil, cbStopCount_nil,
        isContentBlockStart_messageDelta, isContentBlockStop_messageDelta,
        isContentBlockStart_messageStop, isContentBlockStop_messageStop,
        List.length_nil] at ha2 ha3 hlen ⊢
      rw [hresp] at ha2 ha3 hlen hopen
      omega
    · rw [hresp] at ha4
      simp [ha4]
    · rw [hresp] at ha6
      exact ha6
    · rw [← List.append_assoc, List.dropLast_concat]
      rw [hresp] at ha5
      simp [ha5]
    · intro _
      rfl
  | some resp =>
    rw [List.append_assoc, List.append_assoc]
    refine stepInvariant_of_ensure s s _ (some resp) _ rfl ?_ ?_ ?_ ?_ ?_
    · simp only [cbStartCount_append, cbStopCount_append, cbStartCount_cons,
        cbStopCount_cons, cbStartCount_nil, cbStopCount_nil,
        isContentBlockStart_messageDelta, isContentBlockStop_messageDelta,
        isContentBlockStart_messageStop, isContentBlockStop_messageStop,
        List.length_nil] at ha2 ha3 hlen ⊢
      rw [hresp] at ha2 ha3 hlen hopen
      omega
    · rw [hresp] at ha4
      simp [ha4]
    · rw [hresp] at ha6
      exact ha6
    · rw [← List.append_assoc, List.dropLast_concat]
      rw [hresp] at ha5
      simp [ha5]
    · intro _
      rfl

/-- Step invariants for the `response.failed` handler. -/
theorem handleResponseFailed_inv (r : RawEvent) (s : ResponsesStreamState) :
    StepInvariant s (handleResponseFailed r s).1
      (handleResponseFailed r s).2 := by
  unfold handleResponseFailed
  simp only []
  obtain ⟨ha1, ha2, ha3, ha4, ha5, ha6, ha7⟩ :=
    closeAllOpenBlocks_inv (ensureMessageStart s r.response).1
  have hopen := congrArg List.length (ensureMessageStart_openBlocks s r.response)
  have hlen := congrArg List.length ha1
  rw [List.append_assoc]
  refine stepInvariant_of_ensure s s _ r.response _ rfl ?_ ?_ ?_ ?_ ?_
  · simp only [cbStartCount_append, cbStopCount_append, cbStartCount_cons,
      cbStopCount_cons, cbStartCount_nil, cbStopCount_nil, buildErrorEvent,
      isContentBlockStart_errorEvent, isContentBlockStop_errorEvent,
      List.length_nil] at ha2 ha3 hlen ⊢
    omega
  · simp [ha4, buildErrorEvent]
  · exact ha6
  · rw [List.dropLast_concat]
    simp [ha5]
  · intro _
    rfl

/-- Step invariants for the terminal `error` handler. -/
theorem handleErrorEvent_inv (r : RawEvent) (s : ResponsesStreamState) :
    StepInvariant s (handleErrorEvent r s).1 (handleErrorEvent r s).2 := by
  unfold handleErrorEvent
  simp only []
  refine ⟨?_, ?_, ?_, ?_, ?_⟩
  · simp [buildErrorEvent]
  · intro h
    exact ⟨by simp [buildErrorEvent], h⟩
  · intro _
    exact Or.inr (Or.inr ⟨by simp [buildErrorEvent], rfl⟩)
  · rfl
  · intro _
    rfl

/-- Ignored upstream events satisfy the step invariants trivially. -/
theorem stepInvariant_refl (s : ResponsesStreamState) : StepInvariant s s [] :=
  ⟨rfl, fun h => ⟨rfl, h⟩, fun _ => Or.inl ⟨rfl, rfl⟩, rfl,
    fun hne => absurd rfl hne⟩

/-- Every step of the stream translator satisfies the step invariants. -/
theorem translateResponsesStreamEvent_inv (r : RawEvent)
    (s : ResponsesStreamState) :
    StepInvariant s (translateResponsesStreamEvent r s).1
      (translateResponsesStreamEvent r s).2 := by
  unfold translateResponsesStreamEvent
  cases ht : jsTypeofString r.type with
  | none => exact stepInvariant_refl s
  | some t =>
    simp only []
    by_cases h1 : t = "response.created"
    · subst h1
      exact handleResponseCreated_inv r s
    rw [if_neg h1]
    by_cases h2 : t = "response.reasoning_summary_text.delta"
    · subst h2
      exact handleReasoningSummaryTextDelta_inv r s
    rw [if_neg h2]
    by_cases h3 : t = "response.output_text.delta"
    · subst h3
      exact handleOutputTextDelta_inv r s
    rw [if_neg h3]
    by_cases h4 : t = "response.reasoning_summary_part.done"
    · subst h4
      exact handleReasoningSummaryPartDone_inv r s
    rw [if_neg h4]
    by_cases h5 : t = "response.output_text.done"
    · subst h5
      exact handleOutputTextDone_inv r s
    rw [if_neg h5]
    by_cases h6 : t = "response.output_item.added"
    · subst h6
      exact handleOutputItemAdded_inv r s
    rw [if_neg h6]
    by_cases h7 : t = "response.output_item.done"
    · subst h7
      exact handleOutputItemDone_inv r s
    rw [if_neg h7]
    by_cases h8 : t = "response.function_call_arguments.delta"
    · subst h8
      exact handleFunctionCallArgumentsDelta_inv r s
    rw [if_neg h8]
    by_cases h9 : t = "response.function_call_arguments.done"
    · subst h9
      exact handleFunctionCallArgumentsDone_inv r s
    rw [if_neg h9]
    by_cases h10 : t = "response.completed"
    · subst h10
      exact handleResponseCompleted_inv r s
    rw [if_neg h10]
    by_cases h11 : t = "response.incomplete"
    · subst h11
      exact handleResponseCompleted_inv r s
    rw [if_neg h11]
    by_cases h12 : t = "response.failed"
    · subst h12
      exact handleResponseFailed_inv r s
    rw [if_neg h12]
    by_cases h13 : t = "error"
    · subst h13
      exact handleErrorEvent_inv r s
    rw [if_neg h13]
    exact stepInvariant_refl s

/-- A terminal `response.completed` / `response.incomplete` /
`response.failed` event leaves no open blocks behind. -/
theorem translateResponsesStreamEvent_terminal_openBlocks (r : RawEvent)
    (s : ResponsesStreamState)
    (h : jsTypeofString r.type = some "response.completed"
      ∨ jsTypeofString r.type = some "response.incomplete"
      ∨ jsTypeofString r.type = some "response.failed") :
    (translateResponsesStreamEvent r s).1.openBlocks = [] := by
  unfold translateResponsesStreamEvent
  rcases h with h | h | h <;> rw [h] <;> rfl

/-- The block-start/stop balance, folded over a whole event list. -/
theorem translateEvents_balance : ∀ (es : List RawEvent)
    (s : ResponsesStreamState),
    cbStartCount (translateEvents es s).2 + s.openBlocks.length
      = cbStopCount (translateEvents es s).2
        + (translateEvents es s).1.openBlocks.length
  | [], s => by simp [translateEvents]
  | e :: es, s => by
    have hstep := (translateResponsesStreamEvent_inv e s).1
    have hrec := translateEvents_balance es (translateResponsesStreamEvent e s).1
    simp only [translateEvents, cbStartCount_append, cbStopCount_append]
    omega

/-- `translateEvents` splits along list append. -/
theorem translateEvents_append : ∀ (a b : List RawEvent)
    (s : ResponsesStreamState),
    translateEvents (a ++ b) s
      = ((translateEvents b (translateEvents a s).1).1,
         (translateEvents a s).2 ++ (translateEvents b (translateEvents a s).1).2)
  | [], b, s => by simp [translateEvents]
  | e :: a, b, s => by
    have ih := translateEvents_append a b (translateResponsesStreamEvent e s).1
    simp only [List.cons_append, translateEvents, ih]
    simp [ih, List.append_assoc]

theorem msgStartCount_tail_eq_zero {l : List AnthropicStreamEvent}
    (h : msgStartCount l = 0) : msgStartCount l.tail = 0 := by
  cases l with
  | nil => rfl
  | cons x xs =>
    rw [msgStartCount_cons] at h
    rw [List.tail_cons]
    omega

/-- Once `message_start` was sent, the driver emits no further one. -/
theorem runStream_no_messageStart : ∀ (es : List RawEvent)
    (s : ResponsesStreamState), s.messageStartSent = true →
    msgStartCount (runStream s es) = 0
  | [], s, h => by
    unfold runStream
    split <;> rfl
  | e :: es, s, h => by
    have hi := translateResponsesStreamEvent_inv e s
    obtain ⟨hcnt, hsent⟩ := hi.2.1 h
    have hrec := runStream_no_messageStart es _ hsent
    unfold runStream
    rw [msgStartCount_append, hcnt]
    split
    · rfl
    · simpa using hrec

/-- From a fresh (not-yet-started) state, any `message_start` the driver
emits is the very first event of the client stream. -/
theorem runStream_messageStart_head : ∀ (es : List RawEvent)
    (s : ResponsesStreamState), s.messageStartSent = false →
    msgStartCount (runStream s es).tail = 0
  | [], s, h => by
    unfold runStream
    split <;> rfl
  | e :: es, s, h => by
    have hi := translateResponsesStreamEvent_inv e s
    unfold runStream
    simp only []
    rcases hi.2.2.1 h with ⟨hout, hs⟩ | ⟨i, rest, hout, hcnt, hsent⟩ | ⟨hcnt, hcomp⟩
    · rw [hout, hs]
      simp only [List.nil_append]
      split
      · rfl
      · exact runStream_messageStart_head es s h
    · rw [hout]
      rw [List.cons_append, List.tail_cons, msgStartCount_append, hcnt]
      split
      · rfl
      · simpa using runStream_no_messageStart es _ hsent
    · rw [if_pos hcomp, List.append_nil]
      exact msgStartCount_tail_eq_zero hcnt

/-- The driver never emits `message_stop` other than as the final client
event. -/
theorem runStream_stop_last : ∀ (es : List RawEvent)
    (s : ResponsesStreamState),
    msgStopCount (runStream s es).dropLast = 0
  | [], s => by
    unfold runStream
    split <;> rfl
  | e :: es, s => by
    have hi := translateResponsesStreamEvent_inv e s
    obtain ⟨-, -, -, hstopd, hstop⟩ := hi
    unfold runStream
    simp only []
    by_cases hc : (translateResponsesStreamEvent e s).1.messageCompleted = true
    · rw [if_pos hc, List.append_nil]
      exact hstopd
    · have hz : msgStopCount (translateResponsesStreamEvent e s).2 = 0 := by
        by_contra hnz
        exact hc (hstop hnz)
      rw [if_neg hc]
      have hrec := runStream_stop_last es (translateResponsesStreamEvent e s).1
      cases hb : runStream (translateResponsesStreamEvent e s).1 es with
      | nil =>
        rw [List.append_nil]
        exact msgStopCount_dropLast_eq_zero hz
      | cons x xs =>
        rw [List.dropLast_append_cons, msgStopCount_append, hz]
        rw [hb] at hrec
        simpa using hrec

theorem msgStartCount_le_one_of_tail {l : List AnthropicStreamEvent}
    (h : msgStartCount l.tail = 0) : msgStartCount l ≤ 1 := by
  cases l with
  | nil => exact Nat.le_succ 0
  | cons x xs =>
    rw [List.tail_cons] at h
    rw [msgStartCount_cons, h]
    split <;> omega

theorem msgStopCount_le_one_of_dropLast {l : List AnthropicStreamEvent}
    (h : msgStopCount l.dropLast = 0) : msgStopCount l ≤ 1 := by
  cases hl : l with
  | nil => exact Nat.le_succ 0
  | cons x xs =>
    rw [hl] at h
    have hsp := List.dropLast_append_getLast (List.cons_ne_nil x xs)
    conv_lhs => rw [← hsp]
    rw [msgStopCount_append, h, msgStopCount_cons, msgStopCount_nil]
    split <;> omega

/-- C1 (amended): over the stream translator started from a fresh state,
the number of `content_block_start` events emitted is always at least the
number of `content_block_stop` events emitted — the surplus being exactly
the number of blocks still open — and the two counts are equal whenever
the upstream stream ends with a `response.completed`,
`response.incomplete` or `response.failed` event, whose handlers close
every open block.  (The original claim of equality for *every* stream,
including error-terminated ones, is refuted by `c1_counterexample`:
`handleErrorEvent` marks the message completed without closing open
blocks.) -/
theorem c1_content_block_balance (es : List RawEvent) :
    cbStopCount (translateEvents es createResponsesStreamState).2
        ≤ cbStartCount (translateEvents es createResponsesStreamState).2
    ∧ cbStartCount (translateEvents es createResponsesStreamState).2
        = cbStopCount (translateEvents es createResponsesStreamState).2
          + (translateEvents es createResponsesStreamState).1.openBlocks.length
    ∧ (∀ (es0 : List RawEvent) (e : RawEvent), es = es0 ++ [e] →
        (jsTypeofString e.type = some "response.completed"
          ∨ jsTypeofString e.type = some "response.incomplete"
          ∨ jsTypeofString e.type = some "response.failed") →
        cbStartCount (translateEvents es createResponsesStreamState).2
          = cbStopCount (translateEvents es createResponsesStreamState).2) := by
  have hbal := translateEvents_balance es createResponsesStreamState
  have h0 : createResponsesStreamState.openBlocks.length = 0 := rfl
  refine ⟨by omega, by omega, ?_⟩
  rintro es0 e rfl hterm
  have happ := translateEvents_append es0 [e] createResponsesStreamState
  have hterm2 := translateResponsesStreamEvent_terminal_openBlocks e
    (translateEvents es0 createResponsesStreamState).1 hterm
  have hfin : (translateEvents (es0 ++ [e])
      createResponsesStreamState).1.openBlocks = [] := by
    rw [happ]
    simp only [translateEvents]
    simpa using hterm2
  have hlen := congrArg List.length hfin
  simp only [List.length_nil] at hlen
  omega

/-- C4 (amended): in every client event sequence produced by the driving
loop from a fresh state, `message_start` is emitted at most once and only
as the very first event, and `message_stop` is emitted at most once and
only as the final event.  (The original claim that `message_start` is
emitted *exactly* once on every stream — including one starting with an
`error` event — is refuted by `c4_counterexample`: `handleErrorEvent`
never calls `ensureMessageStart`.) -/
theorem c4_message_framing (es : List RawEvent) :
    msgStartCount (translateStream es) ≤ 1
    ∧ msgStartCount (translateStream es).tail = 0
    ∧ msgStopCount (translateStream es) ≤ 1
    ∧ msgStopCount (translateStream es).dropLast = 0 := by
  have htail : msgStartCount (translateStream es).tail = 0 :=
    runStream_messageStart_head es createResponsesStreamState rfl
  have hdrop : msgStopCount (translateStream es).dropLast = 0 :=
    runStream_stop_last es createResponsesStreamState
  exact ⟨msgStartCount_le_one_of_tail htail, htail,
    msgStopCount_le_one_of_dropLast hdrop, hdrop⟩

/-- C8: text and thinking blocks share the single key space
`<output_index>:<content_index>`: `openThinkingBlockIfNeeded` allocates
exactly like `openTextBlockIfNeeded` at `content_index` 0 (same state,
same block index — only the started block type differs); a missing or
non-numeric `output_index`/`content_index` is coerced to 0 by `toNumber`;
and concretely, a reasoning-summary delta and an output-text delta that
both resolve to key `0:0` are emitted under the same client block index
0, the single `content_block_start`'s type being that of whichever kind
opened the key first. -/
theorem c8_shared_block_key_space :
    (∀ (s : ResponsesStreamState) (oi : Int),
        (openThinkingBlockIfNeeded s oi).blockIndex
            = (openTextBlockIfNeeded s oi 0).blockIndex
          ∧ (openThinkingBlockIfNeeded s oi).state
            = (openTextBlockIfNeeded s oi 0).state)
    ∧ (∀ v, toOptionalNumber v = none → toNumber v = 0)
    ∧ toNumber none = 0
    ∧ (translateEvents [evReasoningDelta, evTextDeltaNoCI]
          createResponsesStreamState).2
        = [.messageStart defaultMessageStartInfo,
           .contentBlockStart 0 .thinking,
           .contentBlockDelta 0 (.thinkingDelta "a"),
           .contentBlockDelta 0 (.textDelta "b")]
    ∧ (translateEvents [evTextDeltaNoCI, evReasoningDelta]
          createResponsesStreamState).2
        = [.messageStart defaultMessageStartInfo,
           .contentBlockStart 0 .text,
           .contentBlockDelta 0 (.textDelta "b"),
           .contentBlockDelta 0 (.thinkingDelta "a")] := by
  refine ⟨?_, ?_, rfl, rfl, rfl⟩
  · intro s oi
    unfold openThinkingBlockIfNeeded openTextBlockIfNeeded
    cases hl : s.blockIndexByKey.lookup (getBlockKey oi 0) <;>
      simp only [hl] <;> split_ifs <;> exact ⟨rfl, rfl⟩
  · intro v hv
    cases v with
    | none => rfl
    | some j =>
      cases j with
      | null => rfl
      | bool b => rfl
      | num n => exact absurd hv (by simp [toOptionalNumber])
      | str t =>
        unfold toOptionalNumber at hv
        simp only [] at hv
        by_cases hlen : t.length > 0
        · rw [if_pos hlen] at hv
          show (numFromString t).getD 0 = 0
          rw [hv]
          rfl
        · have hdat : t.data = [] := by
            have hz : t.data.length = 0 := Nat.eq_zero_of_not_pos hlen
            exact List.eq_nil_of_length_eq_zero hz
          show (numFromString t).getD 0 = 0
          unfold numFromString
          rw [hdat]
          rfl
      | arr l => rfl
      | obj m => rfl

/-- Counterexample to C1 as frozen: on the upstream stream
`[text delta, error]` the translator emits one `content_block_start` and
no `content_block_stop` — `handleErrorEvent` terminates the message
without closing the open text block. -/
theorem c1_counterexample :
    cbStartCount (translateEvents [evTextDelta, evError]
        createResponsesStreamState).2 = 1
    ∧ cbStopCount (translateEvents [evTextDelta, evError]
        createResponsesStreamState).2 = 0 := ⟨rfl, rfl⟩

/-- Witness for C1 (amended) at the concrete stream
`[text delta, response.completed]`: the start and stop counts agree. -/
theorem c1_witness :
    cbStartCount (translateEvents [evTextDelta, evCompleted]
        createResponsesStreamState).2
      = cbStopCount (translateEvents [evTextDelta, evCompleted]
          createResponsesStreamState).2 :=
  (c1_content_block_balance [evTextDelta, evCompleted]).2.2 [evTextDelta]
    evCompleted rfl (Or.inl rfl)

/-- Counterexample to C4 as frozen: an upstream stream whose first event
is `error` produces only the error event — no `message_start` at all, so
`message_start` is not emitted exactly once. -/
theorem c4_counterexample :
    translateStream [evError]
        = [.errorEvent "An unexpected error occurred during streaming."]
    ∧ msgStartCount (translateStream [evError]) = 0 := ⟨rfl, rfl⟩

/-- Witness for C8 at the concrete non-numeric index string `"abc"`. -/
theorem c8_witness :
    toOptionalNumber (some (.str "abc")) = none
    ∧ toNumber (some (.str "abc")) = 0 :=
  ⟨rfl, c8_shared_block_key_space.2.1 (some (.str "abc")) rfl⟩

end CopilotApi
